import Mathlib

/-!
Shallow embedding of the BOL / ground-inventory core of the wtnn-app-backend
repository: the GroundInventoryLot ledger (conditional consume, restore),
the BOL schema's derived-weight hook, the BOL completion / update / delete
operations, the create operation, and the railcar release-empty conversion.

Weights are modelled as rationals (exact arithmetic for the subtraction and
division by 2000 the source performs on JS numbers).  Mongo documents become
Lean structures; the lot collection becomes an id-keyed partial map for the
completion flow and a list for the token-keyed conversion flow; every fallible
route handler becomes a function into `Except`.
-/

namespace Wtnn

/-- Status of a ground inventory lot (groundInventoryLotSchema `status` enum). -/
inductive LotStatus
  | available
  | depleted
  | archived
deriving DecidableEq, Repr

/-- A GroundInventoryLot document (the fields the claims touch):
customer / material references, idempotency token, starting and remaining
weight, and status. -/
structure Lot where
  customer : Nat
  material : Nat
  conversionToken : String
  startingWeight : ℚ
  remainingWeight : ℚ
  status : LotStatus
deriving DecidableEq, Repr

/-- The lot collection keyed by document id, as `findById` and
`findOneAndUpdate` on `_id` see it. -/
def LotStore := Nat → Option Lot

/-- Write a lot document back at an id (models `lot.save()` /
`findByIdAndUpdate`). -/
def setLot (s : LotStore) (id : Nat) (lot : Lot) : LotStore :=
  fun k => if k = id then some lot else s k

/-- JS String.prototype.trim: strip leading and trailing whitespace
(structural implementation, so concrete inputs evaluate). -/
def strTrim (s : String) : String :=
  ⟨((s.data.dropWhile Char.isWhitespace).reverse.dropWhile
    Char.isWhitespace).reverse⟩

instance exceptDecEq {ε α : Type} [DecidableEq ε] [DecidableEq α] :
    DecidableEq (Except ε α) := fun a b =>
  match a, b with
  | .error e1, .error e2 =>
    if h : e1 = e2 then .isTrue (by rw [h])
    else .isFalse (fun hc => h (by injection hc))
  | .ok a1, .ok a2 =>
    if h : a1 = a2 then .isTrue (by rw [h])
    else .isFalse (fun hc => h (by injection hc))
  | .error _, .ok _ => .isFalse (fun hc => Except.noConfusion hc)
  | .ok _, .error _ => .isFalse (fun hc => Except.noConfusion hc)

/-- Errors raised by the ledger's consume helper. -/
inductive LedgerError
  | invalidWeight
  | lotNotFoundZero
  | insufficientQuantity
deriving DecidableEq, Repr

/-- The guard of the conditional update in `consumeGroundInventoryLot`
(part_008 lines 1412-1419): customer and material match, status in
available/depleted, and remaining weight at least the requested weight. -/
def consumeGuard (lot : Lot) (cust mat : Nat) (weight : ℚ) : Prop :=
  lot.customer = cust ∧ lot.material = mat ∧
    (lot.status = .available ∨ lot.status = .depleted) ∧
    weight ≤ lot.remainingWeight

instance (lot : Lot) (cust mat : Nat) (weight : ℚ) :
    Decidable (consumeGuard lot cust mat weight) := by
  unfold consumeGuard; infer_instance

/-- The `consumeGroundInventoryLot` helper (part_008 lines 1396-1435).
Negative weight is rejected; zero weight is a usability probe that does not
mutate the store; positive weight performs the single conditional decrement
(`findOneAndUpdate` with the guard, `$inc remainingWeight : -w`,
`$set status : available`) followed by the separate depleted-status save when
the new remaining weight is not positive.  A missing lot or failed guard
returns the insufficient-quantity error with the store untouched. -/
def consumeGroundInventoryLot (s : LotStore) (lotId : Option Nat)
    (cust mat : Nat) (weight : ℚ) : LotStore × Except LedgerError ℚ :=
  if weight < 0 then (s, .error .invalidWeight)
  else if weight = 0 then
    match lotId with
    | none => (s, .error .lotNotFoundZero)
    | some id =>
      match s id with
      | none => (s, .error .lotNotFoundZero)
      | some lot =>
        if lot.customer = cust ∧ lot.material = mat ∧
            (lot.status = .available ∨ lot.status = .depleted) then
          (s, .ok 0)
        else (s, .error .lotNotFoundZero)
  else
    match lotId with
    | none => (s, .error .insufficientQuantity)
    | some id =>
      match s id with
      | none => (s, .error .insufficientQuantity)
      | some lot =>
        if consumeGuard lot cust mat weight then
          let updated : Lot :=
            { lot with remainingWeight := lot.remainingWeight - weight
                       status := .available }
          let s1 := setLot s id updated
          if updated.remainingWeight ≤ 0 ∧ updated.status ≠ .depleted then
            (setLot s1 id { updated with status := .depleted }, .ok weight)
          else (s1, .ok weight)
        else (s, .error .insufficientQuantity)

/-- The compensating rollback write issued inline in the completion route
(part_008 lines 2084-2087 and 2107-2116): `findByIdAndUpdate` with
`$inc remainingWeight : +w` and `$set status : available`; a no-op when the
id resolves to no document. -/
def restoreGroundInventoryLot (s : LotStore) (lotId : Nat) (weight : ℚ) :
    LotStore :=
  match s lotId with
  | none => s
  | some lot =>
      setLot s lotId
        { lot with remainingWeight := lot.remainingWeight + weight
                   status := .available }

/-- Remaining weight stored at an id, zero when the document is absent
(mirrors the route's `Number(lot.remainingWeight || 0)` reads). -/
def remAt (s : LotStore) (id : Nat) : ℚ :=
  match s id with
  | some lot => lot.remainingWeight
  | none => 0

/-- Starting weight stored at an id, zero when the document is absent. -/
def startAt (s : LotStore) (id : Nat) : ℚ :=
  match s id with
  | some lot => lot.startingWeight
  | none => 0

/-- Status stored at an id, when the document is present. -/
def statusAt (s : LotStore) (id : Nat) : Option LotStatus :=
  match s id with
  | some lot => some lot.status
  | none => none

/-- A sequence of consume calls against one lot id: each element is the
requested weight of one call; failed calls leave the store unchanged and
contribute nothing to the returned total of successfully consumed weight. -/
def consumeSeq (s : LotStore) (lotId cust mat : Nat) :
    List ℚ → LotStore × ℚ
  | [] => (s, 0)
  | w :: ws =>
    match consumeGroundInventoryLot s (some lotId) cust mat w with
    | (s', .ok c) =>
      let r := consumeSeq s' lotId cust mat ws
      (r.1, c + r.2)
    | (s', .error _) => consumeSeq s' lotId cust mat ws

/-- BOL lifecycle status (bolSchema `status` enum). -/
inductive BolStatus
  | draft
  | completed
deriving DecidableEq, Repr

/-- Inventory source of a BOL, post `normalizeInventorySource` (anything that
is not the string "ground" normalizes to railcar). -/
inductive InvSource
  | railcar
  | ground
deriving DecidableEq, Repr

/-- A BOL document: the subset of bolSchema fields the verified claims touch
(references, source, lot links, weigh data, derived weights, rail shipment
numbers).  Dates, driver data and truck/trailer ids carry no claim content
and are omitted. -/
structure Bol where
  status : BolStatus
  orderNumber : Option Nat
  customerName : Option Nat
  shipperName : Option Nat
  projectName : Option Nat
  materialName : Option Nat
  inventorySource : InvSource
  groundInventoryLot : Option Nat
  secondaryGroundInventoryLot : Option Nat
  groundInventoryAllocatedWeight : Option ℚ
  secondaryGroundInventoryAllocatedWeight : Option ℚ
  grossWeight : Option ℚ
  tareWeight : Option ℚ
  primaryNetWeight : Option ℚ
  primaryTonWeight : Option ℚ
  splitLoad : Bool
  railcarID : String
  secondaryRailcarID : String
  secondaryGrossWeight : Option ℚ
  secondaryTareWeight : Option ℚ
  secondaryNetWeight : Option ℚ
  secondaryTonWeight : Option ℚ
  netWeight : Option ℚ
  tonWeight : Option ℚ
  railShipmentBolNumber : String
  secondaryRailShipmentBolNumber : String
deriving DecidableEq, Repr

/-- The bolSchema pre-validate hook (part_000 lines 101-140): clears
source-inappropriate fields, then derives primary, secondary and combined
net/ton weights from the stored gross/tare pairs. -/
def bolPreValidate (b0 : Bol) : Bol :=
  let b :=
    if b0.inventorySource = .ground then
      { b0 with secondaryRailcarID := ""
                railShipmentBolNumber := ""
                secondaryRailShipmentBolNumber := "" }
    else
      { b0 with secondaryGroundInventoryLot := none
                secondaryGroundInventoryAllocatedWeight := none }
  let hasPrimaryWeights := b.grossWeight.isSome && b.tareWeight.isSome
  let hasSecondaryWeights :=
    b.splitLoad && b.secondaryGrossWeight.isSome && b.secondaryTareWeight.isSome
  let b :=
    if hasPrimaryWeights then
      let net := b.grossWeight.getD 0 - b.tareWeight.getD 0
      { b with primaryNetWeight := some net, primaryTonWeight := some (net / 2000) }
    else { b with primaryNetWeight := none, primaryTonWeight := none }
  let b :=
    if hasSecondaryWeights then
      let snet := b.secondaryGrossWeight.getD 0 - b.secondaryTareWeight.getD 0
      { b with secondaryNetWeight := some snet
               secondaryTonWeight := some (snet / 2000) }
    else { b with secondaryNetWeight := none, secondaryTonWeight := none }
  if hasPrimaryWeights then
    let secondaryNet := if hasSecondaryWeights then b.secondaryNetWeight.getD 0 else 0
    let net := b.primaryNetWeight.getD 0 + secondaryNet
    { b with netWeight := some net, tonWeight := some (net / 2000) }
  else { b with netWeight := none, tonWeight := none }

/-- The reference fields an Order lookup returns for backfill. -/
structure OrderDoc where
  customerName : Option Nat
  shipperName : Option Nat
  projectName : Option Nat
  materialName : Option Nat
deriving DecidableEq, Repr

/-- The backfill step of the completion route (part_008 lines 1902-1917):
when reference fields are missing and the BOL links an Order, each missing
field is copied from the linked Order when the Order carries it. -/
def backfillFromOrder (bol : Bol) (ord : Option OrderDoc) : Bol :=
  let missingBefore :=
    bol.customerName.isNone || bol.shipperName.isNone ||
      bol.projectName.isNone || bol.materialName.isNone
  if missingBefore && bol.orderNumber.isSome then
    match ord with
    | some o =>
      { bol with
        customerName :=
          if bol.customerName.isNone && o.customerName.isSome then o.customerName
          else bol.customerName
        shipperName :=
          if bol.shipperName.isNone && o.shipperName.isSome then o.shipperName
          else bol.shipperName
        projectName :=
          if bol.projectName.isNone && o.projectName.isSome then o.projectName
          else bol.projectName
        materialName :=
          if bol.materialName.isNone && o.materialName.isSome then o.materialName
          else bol.materialName }
    | none => bol
  else bol

/-- Validation-stage errors of the completion route, one per early 4xx
return in part_008 lines 1893-2009. -/
inductive ValidError
  | conflictCompleted
  | missingRefs
  | lotRequired
  | lotNotFound
  | lotCustomerMismatch
  | lotMaterialMismatch
  | lotUnavailable
  | secondaryLotRequired
  | lotsMustDiffer
  | secondaryRailcarRequired
  | secondaryRailcarSame
  | secondaryGrossRequired
  | secondaryGrossInvalid
  | negativePrimaryWeights
  | primaryGrossLtTare
  | secondaryWeightsNegative
  | secondaryGrossLtTare
deriving DecidableEq, Repr

/-- The `ensureGroundInventoryLotIsUsable` helper (part_008 lines
1378-1394): read-only usability check of a lot against the expected
customer and material. -/
def ensureGroundInventoryLotIsUsable (lots : LotStore) (lotId : Option Nat)
    (cust mat : Option Nat) : Except ValidError Lot :=
  match lotId with
  | none => .error .lotRequired
  | some id =>
    match lots id with
    | none => .error .lotNotFound
    | some lot =>
      if some lot.customer ≠ cust then .error .lotCustomerMismatch
      else if some lot.material ≠ mat then .error .lotMaterialMismatch
      else if lot.status = .archived ∨ lot.remainingWeight ≤ 0 then
        .error .lotUnavailable
      else .ok lot

/-- The completion request body after the express-validator middleware:
gross/tare present and numeric, optional split-load fields.  Weigh-in/out
times and driver fields are validated to be well-formed by the middleware
and carry no claim content, so they are omitted. -/
structure CompleteReq where
  grossWeight : ℚ
  tareWeight : ℚ
  splitLoad : Bool
  inventorySource : Option InvSource
  groundInventoryLot : Option Nat
  secondaryGroundInventoryLot : Option Nat
  secondaryRailcarID : String
  secondaryGrossWeight : Option ℚ
deriving DecidableEq, Repr

/-- Everything the completion route has established once the validation
section (part_008 lines 1893-2046) has passed: the mutated in-memory BOL
and the locals the consumption phase reads. -/
structure ValidState where
  bol : Bol
  inventorySource : InvSource
  splitLoad : Bool
  customer : Nat
  material : Nat
  primaryGross : ℚ
  primaryTare : ℚ
  secondaryGross : Option ℚ
  secondaryTare : Option ℚ
deriving DecidableEq, Repr

/-- The ground-lot usability block of the completion route (part_008 lines
1930-1956): primary lot usable, and for split loads a present, distinct,
usable secondary lot. -/
def checkLots (lots : LotStore) (inventorySource : InvSource) (splitLoad : Bool)
    (groundLotId secondaryLotId : Option Nat) (cust mat : Option Nat) :
    Except ValidError Unit :=
  if inventorySource = .ground then
    match ensureGroundInventoryLotIsUsable lots groundLotId cust mat with
    | .error e => .error e
    | .ok _ =>
      if splitLoad then
        if secondaryLotId.isNone then .error .secondaryLotRequired
        else if secondaryLotId = groundLotId then .error .lotsMustDiffer
        else
          match ensureGroundInventoryLotIsUsable lots secondaryLotId cust mat with
          | .error e => .error e
          | .ok _ => .ok ()
      else .ok ()
  else .ok ()

/-- The railcar split-load consistency block (part_008 lines 1958-1969). -/
def checkRailSplit (inventorySource : InvSource) (splitLoad : Bool)
    (secondaryRailcarID railcarID : String) (secondaryGrossWeight : Option ℚ) :
    Except ValidError Unit :=
  if inventorySource ≠ .ground ∧ splitLoad = true then
    if strTrim secondaryRailcarID = "" then .error .secondaryRailcarRequired
    else if strTrim secondaryRailcarID = railcarID then .error .secondaryRailcarSame
    else if secondaryGrossWeight.isNone then .error .secondaryGrossRequired
    else .ok ()
  else .ok ()

/-- The primary weight sanity block (part_008 lines 1977-1987). -/
def checkPrimaryWeights (primaryGross primaryTare : ℚ) : Except ValidError Unit :=
  if primaryGross < 0 ∨ primaryTare < 0 then .error .negativePrimaryWeights
  else if primaryGross < primaryTare then .error .primaryGrossLtTare
  else .ok ()

/-- The split secondary weight block (part_008 lines 1995-2009): the
secondary tare is the submitted primary gross weight, and the secondary
gross must not fall below it. -/
def computeSecondaryPair (splitLoad : Bool) (secondaryGrossWeight : Option ℚ)
    (primaryGross : ℚ) : Except ValidError (Option ℚ × Option ℚ) :=
  if splitLoad then
    match secondaryGrossWeight with
    | none => .error .secondaryGrossInvalid
    | some sg =>
      if sg < 0 ∨ primaryGross < 0 then .error .secondaryWeightsNegative
      else if sg < primaryGross then .error .secondaryGrossLtTare
      else .ok (some sg, some primaryGross)
  else .ok (none, none)

/-- The validation section of the completion route (part_008 lines
1893-2046): terminal-status lock, order backfill, lot usability checks,
split-load consistency, weight consistency, the split secondary-tare
convention (secondary tare := primary gross), the in-memory field
assignments, and the rail shipment number stamping. -/
def completeValidate (bol : Bol) (req : CompleteReq)
    (look : Nat → String → String) (ord : Option OrderDoc) (lots : LotStore) :
    Except ValidError ValidState :=
  if bol.status = .completed then .error .conflictCompleted
  else
  let bol := backfillFromOrder bol ord
  if bol.customerName.isNone || bol.shipperName.isNone ||
      bol.projectName.isNone || bol.materialName.isNone then
    .error .missingRefs
  else
  let splitLoad := req.splitLoad
  let inventorySource : InvSource := req.inventorySource.getD bol.inventorySource
  let groundLotId := req.groundInventoryLot.or bol.groundInventoryLot
  let secondaryLotId := req.secondaryGroundInventoryLot.or bol.secondaryGroundInventoryLot
  match checkLots lots inventorySource splitLoad groundLotId secondaryLotId
      bol.customerName bol.materialName with
  | .error e => .error e
  | .ok _ =>
  match checkRailSplit inventorySource splitLoad req.secondaryRailcarID
      bol.railcarID req.secondaryGrossWeight with
  | .error e => .error e
  | .ok _ =>
  if inventorySource = .ground ∧ splitLoad = true ∧ req.secondaryGrossWeight.isNone then
    .error .secondaryGrossRequired
  else
  let primaryGross := req.grossWeight
  let primaryTare := req.tareWeight
  match checkPrimaryWeights primaryGross primaryTare with
  | .error e => .error e
  | .ok _ =>
  match computeSecondaryPair splitLoad req.secondaryGrossWeight primaryGross with
  | .error e => .error e
  | .ok sp =>
  let secondaryGross := sp.1
  let secondaryTare := sp.2
  let bol1 := { bol with
    grossWeight := some primaryGross
    tareWeight := some primaryTare
    inventorySource := inventorySource
    groundInventoryLot := if inventorySource = InvSource.ground then groundLotId else none
    secondaryGroundInventoryLot :=
      if inventorySource = InvSource.ground ∧ splitLoad then secondaryLotId else none
    splitLoad := splitLoad
    railcarID := if inventorySource = InvSource.ground then "" else strTrim bol.railcarID
    secondaryRailcarID :=
      if inventorySource = InvSource.ground then ""
      else if splitLoad then strTrim req.secondaryRailcarID else ""
    secondaryGrossWeight := if splitLoad then secondaryGross else none
    secondaryTareWeight := if splitLoad then secondaryTare else none
    secondaryNetWeight := none
    secondaryTonWeight := none }
  let bol2 := { bol1 with
    railShipmentBolNumber :=
      if inventorySource = InvSource.railcar ∧ bol1.customerName.isSome ∧ bol1.railcarID ≠ "" then
        look (bol1.customerName.getD 0) bol1.railcarID
      else ""
    secondaryRailShipmentBolNumber :=
      if inventorySource = InvSource.railcar ∧ splitLoad ∧ bol1.customerName.isSome ∧
          bol1.secondaryRailcarID ≠ "" then
        look (bol1.customerName.getD 0) bol1.secondaryRailcarID
      else "" }
  .ok { bol := bol2
        inventorySource := inventorySource
        splitLoad := splitLoad
        customer := bol.customerName.getD 0
        material := bol.materialName.getD 0
        primaryGross := primaryGross
        primaryTare := primaryTare
        secondaryGross := secondaryGross
        secondaryTare := secondaryTare }

/-- Errors the completion route can return after validation, plus the
validation errors themselves. -/
inductive CompleteError
  | validation (e : ValidError)
  | negativeConsumption
  | consumeFailed (e : LedgerError)
  | persistFailure
deriving DecidableEq, Repr

/-- The ground-consumption locals the save phase reads (part_008 lines
2048-2052). -/
structure ConsumeInfo where
  consumedWeight : Option ℚ
  consumedPrimaryWeight : Option ℚ
  consumedSecondaryWeight : Option ℚ
  consumedPrimaryLot : Option Nat
  consumedSecondaryLot : Option Nat
deriving DecidableEq, Repr

/-- The consumed primary weight of a ground completion (part_008 line
2054). -/
def consumedPrimaryWeight (v : ValidState) : ℚ :=
  v.primaryGross - v.primaryTare

/-- The consumed secondary weight of a ground completion (part_008 line
2055). -/
def consumedSecondaryWeight (v : ValidState) : ℚ :=
  if v.splitLoad then v.secondaryGross.getD 0 - v.secondaryTare.getD 0 else 0

/-- The ground-consumption phase of the completion route (part_008 lines
2048-2093): computes the consumed weights, rejects negative consumption,
consumes the primary lot, then the secondary lot when split, rolling the
primary consumption back when the secondary consume fails. -/
def completeConsume (v : ValidState) (lots : LotStore) :
    LotStore × Except CompleteError ConsumeInfo :=
  if v.inventorySource = .ground then
    let cp := consumedPrimaryWeight v
    let cs := consumedSecondaryWeight v
    let cw := cp + cs
    if cp < 0 ∨ cs < 0 ∨ cw < 0 then (lots, .error .negativeConsumption)
    else
      match consumeGroundInventoryLot lots v.bol.groundInventoryLot v.customer v.material cp with
      | (s1, .error e) => (s1, .error (.consumeFailed e))
      | (s1, .ok _) =>
        if v.splitLoad then
          match consumeGroundInventoryLot s1 v.bol.secondaryGroundInventoryLot v.customer v.material cs with
          | (s2, .error e) =>
            let s3 :=
              if 0 < cp then
                match v.bol.groundInventoryLot with
                | some pid => restoreGroundInventoryLot s2 pid cp
                | none => s2
              else s2
            (s3, .error (.consumeFailed e))
          | (s2, .ok _) =>
            (s2, .ok ⟨some cw, some cp, some cs, v.bol.groundInventoryLot,
                      v.bol.secondaryGroundInventoryLot⟩)
        else
          (s1, .ok ⟨some cw, some cp, some cs, v.bol.groundInventoryLot, none⟩)
  else (lots, .ok ⟨none, none, none, none, none⟩)

/-- One GroundInventoryAllocation ledger entry. -/
structure Allocation where
  lotId : Nat
  allocatedWeight : ℚ
deriving DecidableEq, Repr

/-- The observable outcome of one completion call: the final lot store, the
persisted BOL document when the save landed, the response, and the
allocation entries recorded. -/
structure CompleteResult where
  lots : LotStore
  savedBol : Option Bol
  outcome : Except CompleteError Bol
  allocations : List Allocation

/-- The save phase of the completion route (part_008 lines 2095-2149):
flips the BOL to Completed and persists it (the mongoose save runs the
pre-validate hook); when the save fails, every positive consumed weight is
restored to its lot before the error propagates; after a successful save
the allocation entries are recorded. -/
def completeSave (v : ValidState) (ci : ConsumeInfo) (lots : LotStore)
    (saveOk : Bool) : CompleteResult :=
  let completed := bolPreValidate { v.bol with
    status := .completed
    groundInventoryAllocatedWeight :=
      if v.inventorySource = .ground then ci.consumedWeight else none
    secondaryGroundInventoryAllocatedWeight :=
      if v.inventorySource = .ground ∧ v.splitLoad then ci.consumedSecondaryWeight
      else none }
  if saveOk then
    let allocs :=
      if v.inventorySource = .ground then
        (match ci.consumedPrimaryLot, ci.consumedPrimaryWeight with
         | some id, some w =>
           if 0 < w then [({ lotId := id, allocatedWeight := w } : Allocation)] else []
         | _, _ => []) ++
        (match ci.consumedSecondaryLot, ci.consumedSecondaryWeight with
         | some id, some w =>
           if 0 < w then [({ lotId := id, allocatedWeight := w } : Allocation)] else []
         | _, _ => [])
      else []
    ⟨lots, some completed, .ok completed, allocs⟩
  else
    let s1 :=
      if v.inventorySource = .ground then
        let sA :=
          match ci.consumedPrimaryLot, ci.consumedPrimaryWeight with
          | some id, some w => if 0 < w then restoreGroundInventoryLot lots id w else lots
          | _, _ => lots
        match ci.consumedSecondaryLot, ci.consumedSecondaryWeight with
        | some id, some w => if 0 < w then restoreGroundInventoryLot sA id w else sA
        | _, _ => sA
      else lots
    ⟨s1, none, .error .persistFailure, []⟩

/-- The whole completion route (part_008 lines 1886-2165), composed from
its validation, consumption and save phases. -/
def completeBol (bol : Bol) (req : CompleteReq) (look : Nat → String → String)
    (ord : Option OrderDoc) (lots : LotStore) (saveOk : Bool) : CompleteResult :=
  match completeValidate bol req look ord lots with
  | .error e => ⟨lots, none, .error (.validation e), []⟩
  | .ok v =>
    match completeConsume v lots with
    | (s1, .error e) => ⟨s1, none, .error e, []⟩
    | (s1, .ok ci) => completeSave v ci s1 saveOk

/-- Error of the plain update and delete routes on a non-Draft BOL. -/
inductive MutError
  | lockedCompleted
deriving DecidableEq, Repr

/-- The BOL update route (part_008 lines 2167-2184): rejects Completed
BOLs before any write. -/
def updateBol (bol : Bol) (patch : Bol → Bol) : Except MutError Bol :=
  if bol.status = .completed then .error .lockedCompleted
  else .ok (patch bol)

/-- The BOL delete route (part_008 lines 2327-2344): only Draft BOLs can
be deleted. -/
def deleteBol (bol : Bol) : Except MutError Unit :=
  if bol.status ≠ .draft then .error .lockedCompleted
  else .ok ()

/-- True when the optional weight is present and negative. -/
def optNeg (o : Option ℚ) : Bool :=
  match o with
  | some x => decide (x < 0)
  | none => false

/-- True when both optional weights are present and the first is below the
second. -/
def optLt (a b : Option ℚ) : Bool :=
  match a, b with
  | some x, some y => decide (x < y)
  | _, _ => false

/-- The creation request body (post express-validator types), part_008
lines 1437-1443.  Dates, driver and truck fields carry no claim content and
are omitted; time presence for Completed-at-creation is the two flags. -/
structure CreateReq where
  orderNumber : Option Nat
  customerName : Option Nat
  shipperName : Option Nat
  projectName : Option Nat
  materialName : Option Nat
  railcarID : String
  railShipmentBolNumber : String
  secondaryRailcarID : String
  inventorySource : Option InvSource
  status : Option BolStatus
  groundInventoryLot : Option Nat
  secondaryGroundInventoryLot : Option Nat
  splitLoad : Bool
  grossWeight : Option ℚ
  tareWeight : Option ℚ
  secondaryGrossWeight : Option ℚ
  secondaryTareWeight : Option ℚ
  hasWeighInTime : Bool
  hasWeighOutTime : Bool
deriving DecidableEq, Repr

/-- Errors of the creation route (part_008 lines 1437-1564). -/
inductive CreateError
  | validationFailed
  | missingCompletionField
  | draftTareNegative
  | negativePrimaryGross
  | negativePrimaryTare
  | primaryGrossLtTare
  | negativeSecondaryGross
  | negativeSecondaryTare
  | secondaryGrossLtTare
  | lotError (e : ValidError)
  | secondaryLotRequired
  | lotsMustDiffer
deriving DecidableEq, Repr

/-- The status-dependent tare handling of the creation route (part_008
lines 1451-1474): Completed-at-creation requires the completion fields;
Draft rejects a negative tare. -/
def normalizeCreateTare (req : CreateReq) (requestedStatus : BolStatus) :
    Except CreateError (Option ℚ) :=
  if requestedStatus = .completed then
    if req.grossWeight.isNone || req.tareWeight.isNone ||
        !req.hasWeighInTime || !req.hasWeighOutTime then
      .error .missingCompletionField
    else .ok req.tareWeight
  else
    match req.tareWeight with
    | some t => if t < 0 then .error .draftTareNegative else .ok (some t)
    | none => .ok none

/-- The ground/railcar lot resolution of the creation route (part_008
lines 1510-1548): ground source checks lots and clears secondary weights;
railcar source keeps the request's secondary weights and clears the
secondary lot. -/
def resolveCreateLots (req : CreateReq) (lots : LotStore)
    (inventorySource : InvSource) (groundInventoryLot : Option Nat) :
    Except CreateError (Option Nat × Option ℚ × Option ℚ) :=
  if inventorySource = .ground then
    match ensureGroundInventoryLotIsUsable lots groundInventoryLot
        req.customerName req.materialName with
    | .error e => .error (.lotError e)
    | .ok _ =>
      if req.splitLoad then
        match req.secondaryGroundInventoryLot with
        | none => .error .secondaryLotRequired
        | some sid =>
          if some sid = groundInventoryLot then .error .lotsMustDiffer
          else
            match ensureGroundInventoryLotIsUsable lots (some sid)
                req.customerName req.materialName with
            | .error e => .error (.lotError e)
            | .ok _ => .ok (some sid, none, none)
      else .ok (none, none, none)
  else .ok (none, req.secondaryGrossWeight, req.secondaryTareWeight)

/-- The BOL creation route (part_008 lines 1437-1564): validator required
fields, status normalization, weight sanity checks, the ground-source lot
checks and secondary clearing, the railcar-source secondary-lot clearing,
the rail shipment number backfill, and the save (which runs the schema's
pre-validate hook). -/
def createBol (req : CreateReq) (look : Nat → String → String)
    (lots : LotStore) : Except CreateError Bol :=
  let inventorySource : InvSource := req.inventorySource.getD .railcar
  if req.orderNumber.isNone || req.customerName.isNone || req.shipperName.isNone ||
      req.projectName.isNone || req.materialName.isNone then
    .error .validationFailed
  else if inventorySource ≠ .ground ∧ strTrim req.railcarID = "" then
    .error .validationFailed
  else
  let requestedStatus : BolStatus := req.status.getD .draft
  match normalizeCreateTare req requestedStatus with
  | .error e => .error e
  | .ok tareWeight =>
  if optNeg req.grossWeight then .error .negativePrimaryGross
  else if optNeg tareWeight then .error .negativePrimaryTare
  else if optLt req.grossWeight tareWeight then .error .primaryGrossLtTare
  else if optNeg req.secondaryGrossWeight then .error .negativeSecondaryGross
  else if optNeg req.secondaryTareWeight then .error .negativeSecondaryTare
  else if optLt req.secondaryGrossWeight req.secondaryTareWeight then
    .error .secondaryGrossLtTare
  else
  let railcarID := if inventorySource = .ground then "" else strTrim req.railcarID
  let railShipmentBolNumber := strTrim req.railShipmentBolNumber
  let groundInventoryLot := req.groundInventoryLot
  match resolveCreateLots req lots inventorySource groundInventoryLot with
  | .error e => .error e
  | .ok pieces =>
  let secondaryGroundInventoryLot := pieces.1
  let secondaryGrossWeight := pieces.2.1
  let secondaryTareWeight := pieces.2.2
  let finalShipmentBol :=
    if railShipmentBolNumber = "" ∧ req.customerName.isSome ∧ railcarID ≠ "" then
      look (req.customerName.getD 0) railcarID
    else railShipmentBolNumber
  let bol : Bol := {
    status := requestedStatus
    orderNumber := req.orderNumber
    customerName := req.customerName
    shipperName := req.shipperName
    projectName := req.projectName
    materialName := req.materialName
    inventorySource := inventorySource
    groundInventoryLot := groundInventoryLot
    secondaryGroundInventoryLot := secondaryGroundInventoryLot
    groundInventoryAllocatedWeight := none
    secondaryGroundInventoryAllocatedWeight := none
    grossWeight := req.grossWeight
    tareWeight := tareWeight
    primaryNetWeight := none
    primaryTonWeight := none
    splitLoad := req.splitLoad
    railcarID := railcarID
    secondaryRailcarID := if inventorySource = .ground then "" else req.secondaryRailcarID
    secondaryGrossWeight := secondaryGrossWeight
    secondaryTareWeight := secondaryTareWeight
    secondaryNetWeight := none
    secondaryTonWeight := none
    netWeight := none
    tonWeight := none
    railShipmentBolNumber := finalShipmentBol
    secondaryRailShipmentBolNumber := "" }
  .ok (bolPreValidate bol)

/-- Actor roles relevant to the release route. -/
inductive Role
  | customer
  | internal
  | admin
deriving DecidableEq, Repr

/-- A Railcar document (the fields the release route reads). -/
structure Railcar where
  docId : Nat
  customerName : Nat
  railcarID : String
  railcarBolNumber : String
  materialName : Option Nat
  currentStatus : String
deriving DecidableEq, Repr

/-- The `buildGroundConversionToken` helper (part_009 lines 261-262). -/
def buildGroundConversionToken (customerId railcarId shipmentBolNumber docId : String) :
    String :=
  String.intercalate "|"
    [strTrim customerId, strTrim railcarId, strTrim shipmentBolNumber, strTrim docId]

/-- Request context of a release-empty call: actor role, the customer scope
carried by the token, the customer's ground-inventory flag, and the
remaining (reported minus already-unloaded) weight the aggregation
computes for the railcar. -/
structure ReleaseCtx where
  role : Role
  tokenCustomerId : Option Nat
  enableGroundInventory : Bool
  remainingWeight : ℚ
deriving DecidableEq, Repr

/-- The conversion outcome the release route reports. -/
structure Conversion where
  created : Bool
  token : String
deriving DecidableEq, Repr

/-- Observable state after a release-empty call: the lot collection and the
reported conversion. -/
structure ReleaseResult where
  lots : List Lot
  conversion : Option Conversion
deriving DecidableEq, Repr

/-- Errors of the release-empty route. -/
inductive ReleaseError
  | forbiddenScope
  | notReleasable
deriving DecidableEq, Repr

/-- Number of lots in the collection carrying a conversion token. -/
def countTokenLots (lots : List Lot) (token : String) : Nat :=
  (lots.filter fun l => l.conversionToken == token).length

/-- The railcar release-empty route (part_009 lines 802-889): customer
scope check, releasable-status check, then — only for internal/admin
actors of a ground-inventory-enabled customer when the railcar has a
material and positive remaining weight — the idempotent conversion of the
remaining weight into a ground inventory lot, keyed by the deterministic
conversion token. -/
def releaseEmpty (railcar : Railcar) (ctx : ReleaseCtx) (lots : List Lot) :
    Except ReleaseError ReleaseResult :=
  if ctx.role = .customer ∧ ctx.tokenCustomerId ≠ some railcar.customerName then
    .error .forbiddenScope
  else if ¬ (railcar.currentStatus = "Available" ∨ railcar.currentStatus = "On-Spot") then
    .error .notReleasable
  else
    let remainingWeight := ctx.remainingWeight
    let shouldConvertToGround :=
      (ctx.role = .internal ∨ ctx.role = .admin) ∧
        ctx.enableGroundInventory = true ∧
        railcar.materialName.isSome = true ∧ 0 < remainingWeight
    if shouldConvertToGround then
      let conversionToken := buildGroundConversionToken
        (toString railcar.customerName) railcar.railcarID
        railcar.railcarBolNumber (toString railcar.docId)
      match lots.find? (fun l => l.conversionToken == conversionToken) with
      | some _ => .ok ⟨lots, some ⟨false, conversionToken⟩⟩
      | none =>
        let newLot : Lot := {
          customer := railcar.customerName
          material := railcar.materialName.getD 0
          conversionToken := conversionToken
          startingWeight := remainingWeight
          remainingWeight := remainingWeight
          status := .available }
        .ok ⟨lots ++ [newLot], some ⟨true, conversionToken⟩⟩
    else .ok ⟨lots, none⟩

/-! Basic store lemmas. -/

theorem setLot_self (s : LotStore) (id : Nat) (lot : Lot) :
    setLot s id lot id = some lot := by
  simp [setLot]

theorem setLot_ne (s : LotStore) (id : Nat) (lot : Lot) (k : Nat) (h : k ≠ id) :
    setLot s id lot k = s k := by
  simp [setLot, h]

/-- On any ledger error the consume helper leaves the store untouched. -/
theorem consume_store_eq_of_error (s : LotStore) (lid : Option Nat)
    (cust mat : Nat) (w : ℚ) (e : LedgerError)
    (h : (consumeGroundInventoryLot s lid cust mat w).2 = .error e) :
    (consumeGroundInventoryLot s lid cust mat w).1 = s := by
  by_cases h1 : w < 0
  · simp [consumeGroundInventoryLot, h1]
  by_cases h2 : w = 0
  · match lid with
    | none => simp [consumeGroundInventoryLot, h1, h2]
    | some id =>
      match hs : s id with
      | none => simp [consumeGroundInventoryLot, h1, h2, hs]
      | some lot =>
        by_cases hg : lot.customer = cust ∧ lot.material = mat ∧
            (lot.status = .available ∨ lot.status = .depleted)
        · simp [consumeGroundInventoryLot, h1, h2, hs, hg]
        · simp [consumeGroundInventoryLot, h1, h2, hs, hg]
  · match lid with
    | none => simp [consumeGroundInventoryLot, h1, h2]
    | some id =>
      match hs : s id with
      | none => simp [consumeGroundInventoryLot, h1, h2, hs]
      | some lot =>
        by_cases hg : consumeGuard lot cust mat w
        · exfalso
          simp [consumeGroundInventoryLot, h1, h2, hs, hg, apply_ite] at h
        · simp [consumeGroundInventoryLot, h1, h2, hs, hg]

/-- A successful consume decrements the tracked lot's remaining weight by
exactly the consumed amount, keeps it nonnegative (given it started
nonnegative), preserves the starting weight, and touches no other id. -/
theorem consume_remAt_of_ok (s : LotStore) (id cust mat : Nat) (w cw : ℚ)
    (h : (consumeGroundInventoryLot s (some id) cust mat w).2 = .ok cw) :
    remAt (consumeGroundInventoryLot s (some id) cust mat w).1 id
        = remAt s id - cw ∧
      0 ≤ cw ∧
      (0 ≤ remAt s id → 0 ≤ remAt (consumeGroundInventoryLot s (some id) cust mat w).1 id) ∧
      startAt (consumeGroundInventoryLot s (some id) cust mat w).1 id = startAt s id := by
  by_cases h1 : w < 0
  · simp [consumeGroundInventoryLot, h1] at h
  by_cases h2 : w = 0
  · match hs : s id with
    | none => simp [consumeGroundInventoryLot, h1, h2, hs] at h
    | some lot =>
      by_cases hg : lot.customer = cust ∧ lot.material = mat ∧
          (lot.status = .available ∨ lot.status = .depleted)
      · have hcw : cw = 0 := by
          simpa [consumeGroundInventoryLot, h1, h2, hs, hg] using h.symm
        subst hcw
        simp [consumeGroundInventoryLot, h1, h2, hs, hg]
      · simp [consumeGroundInventoryLot, h1, h2, hs, hg] at h
  · have hwpos : 0 < w := by
      rcases lt_trichotomy w 0 with hlt | heq | hgt
      · exact absurd hlt h1
      · exact absurd heq h2
      · exact hgt
    match hs : s id with
    | none => simp [consumeGroundInventoryLot, h1, h2, hs] at h
    | some lot =>
      by_cases hg : consumeGuard lot cust mat w
      · have hcw : cw = w := by
          have h' := h
          simp [consumeGroundInventoryLot, h1, h2, hs, hg, apply_ite] at h'
          exact h'.symm
        have hble : w ≤ lot.remainingWeight := hg.2.2.2
        by_cases hd : lot.remainingWeight - w ≤ 0
        · simp [consumeGroundInventoryLot, h1, h2, hs, hg, hd, hcw, remAt, startAt,
            setLot, sub_nonneg, sub_nonpos, hble, hwpos.le]
        · simp [consumeGroundInventoryLot, h1, h2, hs, hg, hd, hcw, remAt, startAt,
            setLot, sub_nonneg, sub_nonpos, hble, hwpos.le]
      · simp [consumeGroundInventoryLot, h1, h2, hs, hg] at h

/-- A successful consume returns exactly the requested weight. -/
theorem consume_ok_weight (s : LotStore) (lid : Option Nat) (cust mat : Nat)
    (w cw : ℚ) (h : (consumeGroundInventoryLot s lid cust mat w).2 = .ok cw) :
    cw = w := by
  by_cases h1 : w < 0
  · simp [consumeGroundInventoryLot, h1] at h
  by_cases h2 : w = 0
  · subst h2
    match lid with
    | none => simp [consumeGroundInventoryLot, h1] at h
    | some id =>
      match hs : s id with
      | none => simp [consumeGroundInventoryLot, h1, hs] at h
      | some lot =>
        by_cases hg : lot.customer = cust ∧ lot.material = mat ∧
            (lot.status = .available ∨ lot.status = .depleted)
        · simpa [consumeGroundInventoryLot, h1, hs, hg] using h.symm
        · simp [consumeGroundInventoryLot, h1, hs, hg] at h
  · match lid with
    | none => simp [consumeGroundInventoryLot, h1, h2] at h
    | some id =>
      match hs : s id with
      | none => simp [consumeGroundInventoryLot, h1, h2, hs] at h
      | some lot =>
        by_cases hg : consumeGuard lot cust mat w
        · have h' := h
          simp [consumeGroundInventoryLot, h1, h2, hs, hg, apply_ite] at h'
          exact h'.symm
        · simp [consumeGroundInventoryLot, h1, h2, hs, hg] at h

/-- A successful consume means the lot existed, and it still exists
afterwards. -/
theorem consume_ok_presence (s : LotStore) (id cust mat : Nat) (w cw : ℚ)
    (h : (consumeGroundInventoryLot s (some id) cust mat w).2 = .ok cw) :
    ((consumeGroundInventoryLot s (some id) cust mat w).1 id).isSome = true ∧
      (s id).isSome = true := by
  by_cases h1 : w < 0
  · simp [consumeGroundInventoryLot, h1] at h
  by_cases h2 : w = 0
  · match hs : s id with
    | none => simp [consumeGroundInventoryLot, h1, h2, hs] at h
    | some lot =>
      by_cases hg : lot.customer = cust ∧ lot.material = mat ∧
          (lot.status = .available ∨ lot.status = .depleted)
      · simp [consumeGroundInventoryLot, h1, h2, hs, hg]
      · simp [consumeGroundInventoryLot, h1, h2, hs, hg] at h
  · match hs : s id with
    | none => simp [consumeGroundInventoryLot, h1, h2, hs] at h
    | some lot =>
      by_cases hg : consumeGuard lot cust mat w
      · by_cases hd : lot.remainingWeight - w ≤ 0 <;>
          simp [consumeGroundInventoryLot, h1, h2, hs, hg, hd, setLot]
      · simp [consumeGroundInventoryLot, h1, h2, hs, hg] at h

/-- A consume never touches any other id of the store. -/
theorem consume_preserves_other (s : LotStore) (lid : Option Nat)
    (cust mat : Nat) (w : ℚ) (k : Nat) (hk : some k ≠ lid) :
    (consumeGroundInventoryLot s lid cust mat w).1 k = s k := by
  by_cases h1 : w < 0
  · simp [consumeGroundInventoryLot, h1]
  by_cases h2 : w = 0
  · match lid with
    | none => simp [consumeGroundInventoryLot, h1, h2]
    | some id =>
      match hs : s id with
      | none => simp [consumeGroundInventoryLot, h1, h2, hs]
      | some lot =>
        by_cases hg : lot.customer = cust ∧ lot.material = mat ∧
            (lot.status = .available ∨ lot.status = .depleted) <;>
          simp [consumeGroundInventoryLot, h1, h2, hs, hg]
  · match lid with
    | none => simp [consumeGroundInventoryLot, h1, h2]
    | some id =>
      have hne : k ≠ id := by
        intro hbad
        exact hk (by rw [hbad])
      match hs : s id with
      | none => simp [consumeGroundInventoryLot, h1, h2, hs]
      | some lot =>
        by_cases hg : consumeGuard lot cust mat w
        · by_cases hd : lot.remainingWeight - w ≤ 0 <;>
            simp [consumeGroundInventoryLot, h1, h2, hs, hg, hd, setLot, hne]
        · simp [consumeGroundInventoryLot, h1, h2, hs, hg]

/-- Effect of the compensating restore on a present lot: the weight is
added back, the status is set to available, and the lot stays present. -/
theorem restore_effect (s : LotStore) (id : Nat) (w : ℚ)
    (h : (s id).isSome = true) :
    remAt (restoreGroundInventoryLot s id w) id = remAt s id + w ∧
      statusAt (restoreGroundInventoryLot s id w) id = some .available ∧
      ((restoreGroundInventoryLot s id w) id).isSome = true := by
  match hs : s id with
  | none => rw [hs] at h; cases h
  | some lot => simp [restoreGroundInventoryLot, hs, remAt, statusAt, setLot]

/-- The restore touches no other id. -/
theorem restore_other (s : LotStore) (id : Nat) (w : ℚ) (k : Nat)
    (hk : k ≠ id) : restoreGroundInventoryLot s id w k = s k := by
  match hs : s id with
  | none => simp [restoreGroundInventoryLot, hs]
  | some lot => simp [restoreGroundInventoryLot, hs, setLot, hk]

/-- The running total of a consume sequence equals the drop in the lot's
remaining weight, and the remaining weight stays nonnegative. -/
theorem consumeSeq_invariant (id cust mat : Nat) :
    ∀ (ws : List ℚ) (s : LotStore),
      (consumeSeq s id cust mat ws).2
          = remAt s id - remAt (consumeSeq s id cust mat ws).1 id ∧
        (0 ≤ remAt s id → 0 ≤ remAt (consumeSeq s id cust mat ws).1 id) ∧
        startAt (consumeSeq s id cust mat ws).1 id = startAt s id
  | [], s => by simp [consumeSeq]
  | w :: ws, s => by
    unfold consumeSeq
    match hc : consumeGroundInventoryLot s (some id) cust mat w with
    | (s', Except.ok c) =>
      have h2 : (consumeGroundInventoryLot s (some id) cust mat w).2 = .ok c := by
        rw [hc]
      have hstep := consume_remAt_of_ok s id cust mat w c h2
      rw [hc] at hstep
      have ih := consumeSeq_invariant id cust mat ws s'
      simp only
      refine ⟨?_, ?_, ?_⟩
      · rw [ih.1, hstep.1]; ring
      · intro h0
        exact ih.2.1 (hstep.2.2.1 h0)
      · rw [ih.2.2, hstep.2.2.2]
    | (s', Except.error e) =>
      have h2 : (consumeGroundInventoryLot s (some id) cust mat w).2 = .error e := by
        rw [hc]
      have hst := consume_store_eq_of_error s (some id) cust mat w e h2
      rw [hc] at hst
      simp only at hst
      rw [hst]
      exact consumeSeq_invariant id cust mat ws s

/-- C1: a positive-weight consume against a ground inventory lot decrements
the lot exactly when the atomic guard (enough remaining weight, status
available or depleted, matching customer and material) holds; a failed
guard returns the insufficient-quantity error and leaves the store — hence
the lot — untouched; a successful consume subtracts exactly the requested
weight and cannot drive the remaining weight negative; and over any
sequence of consume calls against one lot the total successfully consumed
weight never exceeds the lot's starting weight. -/
theorem consume_guard_correct_and_conservation
    (s : LotStore) (id cust mat : Nat) (lot : Lot) (w : ℚ) (ws : List ℚ)
    (hl : s id = some lot) (hw : 0 < w)
    (h0 : 0 ≤ lot.remainingWeight) (hrs : lot.remainingWeight ≤ lot.startingWeight) :
    ((consumeGroundInventoryLot s (some id) cust mat w).2 = .ok w ↔
        consumeGuard lot cust mat w) ∧
    ((consumeGroundInventoryLot s (some id) cust mat w).2 = .ok w →
        remAt (consumeGroundInventoryLot s (some id) cust mat w).1 id
            = lot.remainingWeight - w ∧
          0 ≤ remAt (consumeGroundInventoryLot s (some id) cust mat w).1 id ∧
          startAt (consumeGroundInventoryLot s (some id) cust mat w).1 id
            = lot.startingWeight) ∧
    (¬ consumeGuard lot cust mat w →
        (consumeGroundInventoryLot s (some id) cust mat w).2
            = .error .insufficientQuantity ∧
          (consumeGroundInventoryLot s (some id) cust mat w).1 = s) ∧
    (consumeSeq s id cust mat ws).2 ≤ lot.startingWeight := by
  have hnlt : ¬ w < 0 := not_lt.mpr hw.le
  have hnz : ¬ w = 0 := ne_of_gt hw
  refine ⟨?_, ?_, ?_, ?_⟩
  · constructor
    · intro hok
      by_contra hg
      have : (consumeGroundInventoryLot s (some id) cust mat w).2
          = .error .insufficientQuantity := by
        unfold consumeGroundInventoryLot
        simp [hnlt, hnz, hl, hg]
      rw [this] at hok
      exact absurd hok (by simp)
    · intro hg
      unfold consumeGroundInventoryLot
      simp only [if_neg hnlt, if_neg hnz, hl, if_pos hg]
      split <;> rfl
  · intro hok
    have := consume_remAt_of_ok s id cust mat w w hok
    refine ⟨?_, ?_, ?_⟩
    · rw [this.1]; simp [remAt, hl]
    · have hg : consumeGuard lot cust mat w := by
        by_contra hg
        have : (consumeGroundInventoryLot s (some id) cust mat w).2
            = .error .insufficientQuantity := by
          unfold consumeGroundInventoryLot
          simp [hnlt, hnz, hl, hg]
        rw [this] at hok
        exact absurd hok (by simp)
      have h0' : 0 ≤ remAt s id := by simp [remAt, hl, h0]
      exact this.2.2.1 h0'
    · rw [this.2.2.2]; simp [startAt, hl]
  · intro hg
    constructor
    · unfold consumeGroundInventoryLot
      simp [hnlt, hnz, hl, hg]
    · apply consume_store_eq_of_error (e := .insufficientQuantity)
      unfold consumeGroundInventoryLot
      simp [hnlt, hnz, hl, hg]
  · have hinv := consumeSeq_invariant id cust mat ws s
    have h0' : 0 ≤ remAt s id := by simp [remAt, hl, h0]
    have hrem : remAt s id ≤ lot.startingWeight := by
      simp [remAt, hl]; exact hrs
    have := hinv.2.1 h0'
    rw [hinv.1]
    linarith

/-- Witness for C1 at a concrete lot and weights. -/
theorem consume_guard_correct_and_conservation_witness :
    ((consumeGroundInventoryLot
        (fun k => if k = 1 then some ⟨5, 7, "", 100, 80, .available⟩ else none)
        (some 1) 5 7 30).2 = .ok 30 ↔
      consumeGuard ⟨5, 7, "", 100, 80, .available⟩ 5 7 30) ∧
    (consumeSeq
        (fun k => if k = 1 then some ⟨5, 7, "", 100, 80, .available⟩ else none)
        1 5 7 [30, 30, 30]).2 ≤ (100 : ℚ) := by
  have h := consume_guard_correct_and_conservation
    (fun k => if k = 1 then some ⟨5, 7, "", 100, 80, .available⟩ else none)
    1 5 7 ⟨5, 7, "", 100, 80, .available⟩ 30 [30, 30, 30]
    (by simp) (by norm_num) (by norm_num) (by norm_num)
  exact ⟨h.1, h.2.2.2⟩

/-- A usable lot id is present. -/
theorem ensureUsable_isSome (lots : LotStore) (lid : Option Nat)
    (cust mat : Option Nat) (lot : Lot)
    (h : ensureGroundInventoryLotIsUsable lots lid cust mat = .ok lot) :
    lid.isSome = true := by
  cases lid with
  | some id => rfl
  | none => simp [ensureGroundInventoryLotIsUsable] at h

/-- A passed lot check guarantees, for ground source, a present primary
lot id and, for split loads, a present secondary lot id distinct from the
primary. -/
theorem checkLots_post (lots : LotStore) (inventorySource : InvSource)
    (splitLoad : Bool) (groundLotId secondaryLotId : Option Nat)
    (cust mat : Option Nat) (u : Unit)
    (h : checkLots lots inventorySource splitLoad groundLotId secondaryLotId
        cust mat = .ok u) :
    inventorySource = .ground →
      groundLotId.isSome = true ∧
      (splitLoad = true →
        secondaryLotId.isSome = true ∧ secondaryLotId ≠ groundLotId) := by
  intro hg
  subst hg
  unfold checkLots at h
  rw [if_pos rfl] at h
  cases hE : ensureGroundInventoryLotIsUsable lots groundLotId cust mat with
  | error e => rw [hE] at h; simp at h
  | ok lot =>
    rw [hE] at h
    have h1 := ensureUsable_isSome lots groundLotId cust mat lot hE
    by_cases hs : splitLoad = true
    · rw [if_pos hs] at h
      by_cases h2 : secondaryLotId.isNone = true
      · rw [if_pos h2] at h; simp at h
      · rw [if_neg h2] at h
        by_cases h3 : secondaryLotId = groundLotId
        · rw [if_pos h3] at h; simp at h
        · rw [if_neg h3] at h
          refine ⟨h1, fun _ => ⟨?_, h3⟩⟩
          cases secondaryLotId with
          | some sid => rfl
          | none => exact absurd rfl h2
    · rw [if_neg hs] at h
      exact ⟨h1, fun hs' => absurd hs' hs⟩

/-- Passed primary weight checks mean nonnegative weights with
gross ≥ tare. -/
theorem checkPrimaryWeights_post (g t : ℚ) (u : Unit)
    (h : checkPrimaryWeights g t = .ok u) :
    0 ≤ t ∧ 0 ≤ g ∧ t ≤ g := by
  unfold checkPrimaryWeights at h
  by_cases h1 : g < 0 ∨ t < 0
  · rw [if_pos h1] at h; simp at h
  · rw [if_neg h1] at h
    by_cases h2 : g < t
    · rw [if_pos h2] at h; simp at h
    · push_neg at h1 h2
      exact ⟨h1.2, h1.1, h2⟩

/-- The computed secondary pair of a split load is (secondary gross,
primary gross as tare) with gross not below the tare; a non-split load
has no secondary pair. -/
theorem computeSecondaryPair_post (s : Bool) (sgw : Option ℚ) (g : ℚ)
    (sp : Option ℚ × Option ℚ)
    (h : computeSecondaryPair s sgw g = .ok sp) :
    (s = true → ∃ sg, sp = (some sg, some g) ∧ g ≤ sg) ∧
      (s = false → sp = (none, none)) ∧
      (s = true → sp.1 = sgw) := by
  unfold computeSecondaryPair at h
  by_cases hs : s = true
  · rw [if_pos hs] at h
    cases sgw with
    | none => simp at h
    | some sg =>
      simp only [] at h
      by_cases h1 : sg < 0 ∨ g < 0
      · rw [if_pos h1] at h; simp at h
      · rw [if_neg h1] at h
        by_cases h2 : sg < g
        · rw [if_pos h2] at h; simp at h
        · rw [if_neg h2] at h
          simp only [Except.ok.injEq] at h
          refine ⟨fun _ => ⟨sg, h.symm, not_lt.mp h2⟩, fun hf => ?_, fun _ => ?_⟩
          · rw [hs] at hf; cases hf
          · rw [← h]
  · rw [if_neg hs] at h
    simp only [Except.ok.injEq] at h
    exact ⟨fun ht => absurd ht hs, fun _ => h.symm, fun ht => absurd ht hs⟩

/-- Everything a successful validation phase guarantees about the state it
hands to the consumption phase: nonnegative primary weights with
gross ≥ tare, the split secondary-tare convention with secondary gross ≥
its tare, and — for ground source — a present primary lot id and, when
split, a present, distinct secondary lot id. -/
theorem completeValidate_post (bol : Bol) (req : CompleteReq)
    (look : Nat → String → String) (ord : Option OrderDoc) (lots : LotStore)
    (v : ValidState) (hv : completeValidate bol req look ord lots = .ok v) :
    bol.status = .draft ∧
      v.splitLoad = req.splitLoad ∧
      v.primaryGross = req.grossWeight ∧
      v.primaryTare = req.tareWeight ∧
      0 ≤ v.primaryTare ∧ 0 ≤ v.primaryGross ∧ v.primaryTare ≤ v.primaryGross ∧
      (v.splitLoad = true →
        ∃ sg, v.secondaryGross = some sg ∧ v.secondaryTare = some v.primaryGross ∧
          v.primaryGross ≤ sg) ∧
      (v.splitLoad = false → v.secondaryGross = none ∧ v.secondaryTare = none) ∧
      (v.inventorySource = .ground →
        v.bol.groundInventoryLot.isSome = true ∧
        (v.splitLoad = true →
          v.bol.secondaryGroundInventoryLot.isSome = true ∧
          v.bol.secondaryGroundInventoryLot ≠ v.bol.groundInventoryLot)) ∧
      v.bol.grossWeight = some v.primaryGross ∧
      v.bol.tareWeight = some v.primaryTare ∧
      v.bol.splitLoad = v.splitLoad ∧
      v.bol.secondaryGrossWeight = (if v.splitLoad = true then v.secondaryGross else none) ∧
      v.bol.secondaryTareWeight = (if v.splitLoad = true then v.secondaryTare else none) ∧
      v.bol.inventorySource = v.inventorySource ∧
      (v.splitLoad = true → v.secondaryGross = req.secondaryGrossWeight) := by
  unfold completeValidate at hv
  by_cases h1 : bol.status = .completed
  · rw [if_pos h1] at hv; exact absurd hv (by simp)
  rw [if_neg h1] at hv
  have hdraft : bol.status = .draft := by
    cases hs : bol.status
    · rfl
    · exact absurd hs h1
  simp only [] at hv
  by_cases h2 : ((backfillFromOrder bol ord).customerName.isNone ||
      (backfillFromOrder bol ord).shipperName.isNone ||
      (backfillFromOrder bol ord).projectName.isNone ||
      (backfillFromOrder bol ord).materialName.isNone) = true
  · rw [if_pos h2] at hv; exact absurd hv (by simp)
  rw [if_neg h2] at hv
  cases hL : checkLots lots (req.inventorySource.getD (backfillFromOrder bol ord).inventorySource)
      req.splitLoad (req.groundInventoryLot.or (backfillFromOrder bol ord).groundInventoryLot)
      (req.secondaryGroundInventoryLot.or (backfillFromOrder bol ord).secondaryGroundInventoryLot)
      (backfillFromOrder bol ord).customerName (backfillFromOrder bol ord).materialName with
  | error e => rw [hL] at hv; simp at hv
  | ok uL =>
  rw [hL] at hv
  cases hR : checkRailSplit (req.inventorySource.getD (backfillFromOrder bol ord).inventorySource)
      req.splitLoad req.secondaryRailcarID (backfillFromOrder bol ord).railcarID
      req.secondaryGrossWeight with
  | error e => rw [hR] at hv; simp at hv
  | ok uR =>
  rw [hR] at hv
  by_cases h3 : req.inventorySource.getD (backfillFromOrder bol ord).inventorySource = .ground ∧
      req.splitLoad = true ∧ req.secondaryGrossWeight.isNone = true
  · rw [if_pos h3] at hv; simp at hv
  rw [if_neg h3] at hv
  cases hW : checkPrimaryWeights req.grossWeight req.tareWeight with
  | error e => rw [hW] at hv; simp at hv
  | ok uW =>
  rw [hW] at hv
  cases hP : computeSecondaryPair req.splitLoad req.secondaryGrossWeight req.grossWeight with
  | error e => rw [hP] at hv; simp at hv
  | ok sp =>
  rw [hP] at hv
  simp only [Except.ok.injEq] at hv
  subst hv
  have hWpost := checkPrimaryWeights_post req.grossWeight req.tareWeight uW hW
  have hPpost := computeSecondaryPair_post req.splitLoad req.secondaryGrossWeight
    req.grossWeight sp hP
  have hLpost := checkLots_post lots
    (req.inventorySource.getD (backfillFromOrder bol ord).inventorySource)
    req.splitLoad (req.groundInventoryLot.or (backfillFromOrder bol ord).groundInventoryLot)
    (req.secondaryGroundInventoryLot.or (backfillFromOrder bol ord).secondaryGroundInventoryLot)
    (backfillFromOrder bol ord).customerName (backfillFromOrder bol ord).materialName uL hL
  refine ⟨hdraft, rfl, rfl, rfl, hWpost.1, hWpost.2.1, hWpost.2.2, ?_, ?_, ?_,
    rfl, rfl, rfl, rfl, rfl, rfl, fun hs => hPpost.2.2 hs⟩
  · intro hsplit
    obtain ⟨sg, hsp, hle⟩ := hPpost.1 hsplit
    exact ⟨sg, by simp [hsp, hsplit], by simp [hsp, hsplit], hle⟩
  · intro hsplit
    have := hPpost.2.1 hsplit
    simp [this, hsplit]
  · intro hground
    have hground' : req.inventorySource.getD (backfillFromOrder bol ord).inventorySource
        = .ground := hground
    have hl := hLpost hground'
    constructor
    · simp [hground', hl.1]
    · intro hsplit
      have hsplit' : req.splitLoad = true := hsplit
      have h4 := hl.2 hsplit'
      constructor
      · simp [hground', hsplit', h4.1]
      · simpa [hground', hsplit'] using h4.2

/-- Under the bounds the validation phase establishes, the consumption
phase can never take its negative-consumption error branch. -/
theorem completeConsume_no_negative (v : ValidState) (lots : LotStore)
    (hcp : v.primaryTare ≤ v.primaryGross)
    (hcs : v.splitLoad = true →
      ∃ sg, v.secondaryGross = some sg ∧ v.secondaryTare = some v.primaryGross ∧
        v.primaryGross ≤ sg) :
    (completeConsume v lots).2 ≠ .error .negativeConsumption := by
  have h1 : 0 ≤ consumedPrimaryWeight v := sub_nonneg.mpr hcp
  have h2 : 0 ≤ consumedSecondaryWeight v := by
    unfold consumedSecondaryWeight
    cases hsp : v.splitLoad with
    | false => simp
    | true =>
      obtain ⟨sg, hg, ht, hle⟩ := hcs hsp
      simp [hg, ht, sub_nonneg, hle]
  unfold completeConsume
  by_cases hg : v.inventorySource = .ground
  · rw [if_pos hg]
    simp only []
    have hneg : ¬ (consumedPrimaryWeight v < 0 ∨ consumedSecondaryWeight v < 0 ∨
        consumedPrimaryWeight v + consumedSecondaryWeight v < 0) := by
      push_neg
      exact ⟨h1, h2, add_nonneg h1 h2⟩
    rw [if_neg hneg]
    cases hc1 : consumeGroundInventoryLot lots v.bol.groundInventoryLot v.customer
        v.material (consumedPrimaryWeight v) with
    | mk s1 r1 =>
      cases r1 with
      | error e => simp
      | ok c1 =>
        simp only []
        by_cases hsp : v.splitLoad = true
        · rw [if_pos hsp]
          cases hc2 : consumeGroundInventoryLot s1 v.bol.secondaryGroundInventoryLot
              v.customer v.material (consumedSecondaryWeight v) with
          | mk s2 r2 =>
            cases r2 with
            | error e => simp
            | ok c2 => simp
        · rw [if_neg hsp]
          simp
  · rw [if_neg hg]
    simp

/-- C10: the completion route's error branch that rejects a negative
computed ground-inventory consumption is unreachable — for every request,
whatever the BOL, order, lot store and save behavior, the completion's
outcome is never the negative-consumption error, because the earlier
weight validations already force both consumed weights (and their sum) to
be nonnegative. -/
theorem negative_consumption_branch_unreachable (bol : Bol) (req : CompleteReq)
    (look : Nat → String → String) (ord : Option OrderDoc) (lots : LotStore)
    (saveOk : Bool) :
    (completeBol bol req look ord lots saveOk).outcome
      ≠ .error .negativeConsumption := by
  unfold completeBol
  cases hv : completeValidate bol req look ord lots with
  | error e => simp
  | ok v =>
    have hpost := completeValidate_post bol req look ord lots v hv
    have hnc := completeConsume_no_negative v lots hpost.2.2.2.2.2.2.1
      hpost.2.2.2.2.2.2.2.1
    cases hc : completeConsume v lots with
    | mk s1 r =>
      cases r with
      | error e =>
        have he : e ≠ .negativeConsumption := by
          intro hbad
          apply hnc
          rw [hc, hbad]
        simp only []
        rw [hc]
        simpa using he
      | ok ci =>
        simp only []
        rw [hc]
        unfold completeSave
        cases saveOk <;> simp

/-- A concrete Draft BOL used by the concrete-input checks. -/
def sampleDraftBol : Bol :=
  { status := .draft
    orderNumber := some 1
    customerName := some 5
    shipperName := some 2
    projectName := some 3
    materialName := some 7
    inventorySource := .ground
    groundInventoryLot := some 1
    secondaryGroundInventoryLot := some 2
    groundInventoryAllocatedWeight := none
    secondaryGroundInventoryAllocatedWeight := none
    grossWeight := none
    tareWeight := none
    primaryNetWeight := none
    primaryTonWeight := none
    splitLoad := false
    railcarID := ""
    secondaryRailcarID := ""
    secondaryGrossWeight := none
    secondaryTareWeight := none
    secondaryNetWeight := none
    secondaryTonWeight := none
    netWeight := none
    tonWeight := none
    railShipmentBolNumber := ""
    secondaryRailShipmentBolNumber := "" }

/-- The same BOL after its one completion: a Completed document. -/
def sampleCompletedBol : Bol :=
  { sampleDraftBol with status := .completed }

/-- A concrete completion request. -/
def sampleReq : CompleteReq :=
  { grossWeight := 600
    tareWeight := 100
    splitLoad := false
    inventorySource := none
    groundInventoryLot := none
    secondaryGroundInventoryLot := none
    secondaryRailcarID := ""
    secondaryGrossWeight := none }

/-- A concrete lot store: lot 1 and lot 2 for customer 5 / material 7. -/
def sampleLots : LotStore := fun k =>
  if k = 1 then some ⟨5, 7, "", 1000, 1000, .available⟩
  else if k = 2 then some ⟨5, 7, "", 40, 10, .available⟩
  else none

/-- C4: a Completed BOL is terminal and locked — the complete, update and
delete operations each fail with the locked-Completed conflict error, the
completion call performs no writes (lot store untouched, no BOL persisted,
no allocations), and update/delete refuse before any write. -/
theorem completed_bol_terminal_locked (bol : Bol) (req : CompleteReq)
    (look : Nat → String → String) (ord : Option OrderDoc) (lots : LotStore)
    (saveOk : Bool) (patch : Bol → Bol) (h : bol.status = .completed) :
    (completeBol bol req look ord lots saveOk).outcome
        = .error (.validation .conflictCompleted) ∧
      (completeBol bol req look ord lots saveOk).lots = lots ∧
      (completeBol bol req look ord lots saveOk).savedBol = none ∧
      (completeBol bol req look ord lots saveOk).allocations = [] ∧
      updateBol bol patch = .error .lockedCompleted ∧
      deleteBol bol = .error .lockedCompleted := by
  have hv : completeValidate bol req look ord lots = .error .conflictCompleted := by
    unfold completeValidate
    rw [if_pos h]
  have hd : ¬ bol.status = .draft := by rw [h]; simp
  refine ⟨?_, ?_, ?_, ?_, ?_, ?_⟩ <;>
    simp [completeBol, hv, updateBol, deleteBol, h, hd]

/-- Witness for C4 at a concrete Completed BOL. -/
theorem completed_bol_terminal_locked_witness :
    sampleCompletedBol.status = .completed ∧
      (completeBol sampleCompletedBol sampleReq (fun _ _ => "") none sampleLots
          true).outcome = .error (.validation .conflictCompleted) ∧
      deleteBol sampleCompletedBol = .error .lockedCompleted := by
  have h := completed_bol_terminal_locked sampleCompletedBol sampleReq
    (fun _ _ => "") none sampleLots true id rfl
  exact ⟨rfl, h.1, h.2.2.2.2.2⟩

/-- Derived-weight computation of the schema hook, as a reusable lemma. -/
theorem bolPreValidate_weights (b : Bol) (g t : ℚ)
    (hg : b.grossWeight = some g) (ht : b.tareWeight = some t) :
    ((bolPreValidate b).primaryNetWeight = some (g - t) ∧
      (bolPreValidate b).primaryTonWeight = some ((g - t) / 2000)) ∧
    (∀ sg st : ℚ, b.splitLoad = true → b.secondaryGrossWeight = some sg →
        b.secondaryTareWeight = some st →
        (bolPreValidate b).secondaryNetWeight = some (sg - st) ∧
        (bolPreValidate b).secondaryTonWeight = some ((sg - st) / 2000) ∧
        (bolPreValidate b).netWeight = some ((g - t) + (sg - st)) ∧
        (bolPreValidate b).tonWeight = some (((g - t) + (sg - st)) / 2000)) ∧
    ((b.splitLoad = false ∨ b.secondaryGrossWeight = none ∨
        b.secondaryTareWeight = none) →
        (bolPreValidate b).netWeight = some (g - t) ∧
        (bolPreValidate b).tonWeight = some ((g - t) / 2000)) := by
  refine ⟨?_, ?_, ?_⟩
  · by_cases hsrc : b.inventorySource = .ground <;>
      by_cases hsec : (b.splitLoad && b.secondaryGrossWeight.isSome &&
        b.secondaryTareWeight.isSome) = true <;>
      simp [bolPreValidate, hsrc, hsec, hg, ht]
  · intro sg st hsplit hsg hst
    by_cases hsrc : b.inventorySource = .ground <;>
      simp [bolPreValidate, hsrc, hsplit, hsg, hst, hg, ht]
  · intro hdisj
    have hsec : (b.splitLoad && b.secondaryGrossWeight.isSome &&
        b.secondaryTareWeight.isSome) = false := by
      rcases hdisj with h' | h' | h' <;> simp [h']
    by_cases hsrc : b.inventorySource = .ground <;>
      simp [bolPreValidate, hsrc, hsec, hg, ht]

/-- C5: the schema hook derives primaryNetWeight = gross − tare and
primaryTonWeight = primaryNetWeight / 2000; with a split load and both
secondary weights present, secondaryNetWeight = secondaryGross −
secondaryTare and secondaryTonWeight = secondaryNetWeight / 2000, and the
combined netWeight adds the secondary net; without them the combined
netWeight is the primary net alone; tonWeight = netWeight / 2000
throughout. -/
theorem bol_derived_weights (b : Bol) (g t : ℚ)
    (hg : b.grossWeight = some g) (ht : b.tareWeight = some t) :
    ((bolPreValidate b).primaryNetWeight = some (g - t) ∧
      (bolPreValidate b).primaryTonWeight = some ((g - t) / 2000)) ∧
    (∀ sg st : ℚ, b.splitLoad = true → b.secondaryGrossWeight = some sg →
        b.secondaryTareWeight = some st →
        (bolPreValidate b).secondaryNetWeight = some (sg - st) ∧
        (bolPreValidate b).secondaryTonWeight = some ((sg - st) / 2000) ∧
        (bolPreValidate b).netWeight = some ((g - t) + (sg - st)) ∧
        (bolPreValidate b).tonWeight = some (((g - t) + (sg - st)) / 2000)) ∧
    ((b.splitLoad = false ∨ b.secondaryGrossWeight = none ∨
        b.secondaryTareWeight = none) →
        (bolPreValidate b).netWeight = some (g - t) ∧
        (bolPreValidate b).tonWeight = some ((g - t) / 2000)) :=
  bolPreValidate_weights b g t hg ht

/-- A concrete BOL with primary weigh data only. -/
def sampleWeighBol : Bol :=
  { sampleDraftBol with grossWeight := some 600, tareWeight := some 100 }

/-- Witness for C5 at a concrete non-split BOL. -/
theorem bol_derived_weights_witness :
    (bolPreValidate sampleWeighBol).netWeight = some (600 - 100 : ℚ) ∧
      (bolPreValidate sampleWeighBol).tonWeight = some ((600 - 100 : ℚ) / 2000) := by
  exact (bol_derived_weights sampleWeighBol 600 100 rfl rfl).2.2 (Or.inl rfl)

/-- The schema hook never touches the stored weigh data, status, split
flag or primary lot link. -/
theorem bolPreValidate_preserves (b : Bol) :
    (bolPreValidate b).secondaryTareWeight = b.secondaryTareWeight ∧
      (bolPreValidate b).grossWeight = b.grossWeight ∧
      (bolPreValidate b).tareWeight = b.tareWeight ∧
      (bolPreValidate b).splitLoad = b.splitLoad ∧
      (bolPreValidate b).secondaryGrossWeight = b.secondaryGrossWeight ∧
      (bolPreValidate b).status = b.status ∧
      (bolPreValidate b).inventorySource = b.inventorySource ∧
      (bolPreValidate b).groundInventoryLot = b.groundInventoryLot := by
  by_cases h1 : b.inventorySource = .ground <;>
    by_cases h2 : (b.grossWeight.isSome && b.tareWeight.isSome) = true <;>
    by_cases h3 : (b.splitLoad && b.secondaryGrossWeight.isSome &&
      b.secondaryTareWeight.isSome) = true <;>
    simp [bolPreValidate, h1, h2, h3]

/-- The document a successful completion save persists and returns. -/
theorem completeSave_ok (v : ValidState) (ci : ConsumeInfo) (s1 : LotStore)
    (saveOk : Bool) (b : Bol)
    (h : (completeSave v ci s1 saveOk).outcome = .ok b) :
    b = bolPreValidate { v.bol with
      status := .completed
      groundInventoryAllocatedWeight :=
        if v.inventorySource = .ground then ci.consumedWeight else none
      secondaryGroundInventoryAllocatedWeight :=
        if v.inventorySource = .ground ∧ v.splitLoad = true then
          ci.consumedSecondaryWeight
        else none } := by
  unfold completeSave at h
  cases saveOk with
  | false => simp at h
  | true =>
    simp only [if_pos rfl] at h
    simpa using h.symm

/-- C6: for every split-load completion the stored secondaryTareWeight is
the submitted primary grossWeight — not an independently supplied
secondary tare — so the derived secondaryNetWeight on the persisted
document equals secondaryGrossWeight − primary grossWeight; and whenever
the submitted secondaryGrossWeight is below the primary grossWeight, the
completion fails with an error before any lot is consumed or anything is
persisted. -/
theorem split_secondary_tare_convention (bol : Bol) (req : CompleteReq)
    (look : Nat → String → String) (ord : Option OrderDoc) (lots : LotStore)
    (saveOk : Bool) (hsplit : req.splitLoad = true) :
    (∀ sg : ℚ, req.secondaryGrossWeight = some sg → sg < req.grossWeight →
      (completeBol bol req look ord lots saveOk).lots = lots ∧
      (completeBol bol req look ord lots saveOk).savedBol = none ∧
      ∃ e, (completeBol bol req look ord lots saveOk).outcome = .error e) ∧
    (∀ b : Bol, (completeBol bol req look ord lots saveOk).outcome = .ok b →
      b.secondaryTareWeight = some req.grossWeight ∧
      ∀ sg : ℚ, req.secondaryGrossWeight = some sg →
        b.secondaryNetWeight = some (sg - req.grossWeight)) := by
  constructor
  · intro sg hsg hlt
    cases hv : completeValidate bol req look ord lots with
    | error e =>
      refine ⟨?_, ?_, ⟨.validation e, ?_⟩⟩ <;> simp [completeBol, hv]
    | ok v =>
      exfalso
      obtain ⟨hdraft, hsl, hpg, hpt, ht0, hg0, htg, hsplitex, hnonez, hlotsinfo,
        hbg, hbt, hbs, hbsg, hbst, hbinv, hsec⟩ :=
        completeValidate_post bol req look ord lots v hv
      have hsv : v.splitLoad = true := by rw [hsl]; exact hsplit
      obtain ⟨sg', h1, hst', hle⟩ := hsplitex hsv
      have h3 : req.secondaryGrossWeight = some sg' := by
        rw [← hsec hsv]; exact h1
      rw [hsg] at h3
      have h4 : sg = sg' := by injection h3
      rw [hpg] at hle
      rw [← h4] at hle
      exact absurd hlt (not_lt.mpr hle)
  · intro b hb
    unfold completeBol at hb
    cases hv : completeValidate bol req look ord lots with
    | error e => rw [hv] at hb; simp at hb
    | ok v =>
      rw [hv] at hb
      simp only [] at hb
      obtain ⟨hdraft, hsl, hpg, hpt, ht0, hg0, htg, hsplitex, hnonez, hlotsinfo,
        hbg, hbt, hbs, hbsg, hbst, hbinv, hsec⟩ :=
        completeValidate_post bol req look ord lots v hv
      have hsv : v.splitLoad = true := by rw [hsl]; exact hsplit
      obtain ⟨sg', hsg', hst', hle⟩ := hsplitex hsv
      cases hc : completeConsume v lots with
      | mk s1 r =>
        rw [hc] at hb
        cases r with
        | error e => simp at hb
        | ok ci =>
          simp only [] at hb
          have hbdef := completeSave_ok v ci s1 saveOk b hb
          have hXst : ({ v.bol with
              status := BolStatus.completed
              groundInventoryAllocatedWeight :=
                if v.inventorySource = .ground then ci.consumedWeight else none
              secondaryGroundInventoryAllocatedWeight :=
                if v.inventorySource = .ground ∧ v.splitLoad = true then
                  ci.consumedSecondaryWeight
                else none } : Bol).secondaryTareWeight
              = some v.primaryGross := by
            show v.bol.secondaryTareWeight = some v.primaryGross
            rw [hbst, if_pos hsv, hst']
          constructor
          · rw [hbdef, (bolPreValidate_preserves _).1, hXst, hpg]
          · intro sg hsg
            have hXg : ({ v.bol with
                status := BolStatus.completed
                groundInventoryAllocatedWeight :=
                  if v.inventorySource = .ground then ci.consumedWeight else none
                secondaryGroundInventoryAllocatedWeight :=
                  if v.inventorySource = .ground ∧ v.splitLoad = true then
                    ci.consumedSecondaryWeight
                  else none } : Bol).grossWeight = some v.primaryGross := hbg
            have hXt : ({ v.bol with
                status := BolStatus.completed
                groundInventoryAllocatedWeight :=
                  if v.inventorySource = .ground then ci.consumedWeight else none
                secondaryGroundInventoryAllocatedWeight :=
                  if v.inventorySource = .ground ∧ v.splitLoad = true then
                    ci.consumedSecondaryWeight
                  else none } : Bol).tareWeight = some v.primaryTare := hbt
            have hXs : ({ v.bol with
                status := BolStatus.completed
                groundInventoryAllocatedWeight :=
                  if v.inventorySource = .ground then ci.consumedWeight else none
                secondaryGroundInventoryAllocatedWeight :=
                  if v.inventorySource = .ground ∧ v.splitLoad = true then
                    ci.consumedSecondaryWeight
                  else none } : Bol).splitLoad = true := by
              show v.bol.splitLoad = true
              rw [hbs]; exact hsv
            have hXsg : ({ v.bol with
                status := BolStatus.completed
                groundInventoryAllocatedWeight :=
                  if v.inventorySource = .ground then ci.consumedWeight else none
                secondaryGroundInventoryAllocatedWeight :=
                  if v.inventorySource = .ground ∧ v.splitLoad = true then
                    ci.consumedSecondaryWeight
                  else none } : Bol).secondaryGrossWeight = some sg := by
              show v.bol.secondaryGrossWeight = some sg
              rw [hbsg, if_pos hsv, hsec hsv, hsg]
            have hd := (bolPreValidate_weights _ v.primaryGross v.primaryTare
              hXg hXt).2.1 sg v.primaryGross hXs hXsg hXst
            rw [hbdef, hd.1, hpg]

/-- C2: in a split-load ground-source completion where the primary lot's
consume succeeds and the secondary lot's consume then fails, the primary
lot's remaining weight is restored to its pre-call value (the consumed
primary weight is added back, the lot's status set back to available)
before the error is returned, and the BOL remains Draft with nothing
persisted and no allocation recorded. -/
theorem split_ground_secondary_failure_rolls_back_primary
    (bol : Bol) (req : CompleteReq) (look : Nat → String → String)
    (ord : Option OrderDoc) (lots : LotStore) (saveOk : Bool)
    (v : ValidState) (p : Nat) (c1 : ℚ) (e2 : LedgerError)
    (hv : completeValidate bol req look ord lots = .ok v)
    (hground : v.inventorySource = .ground)
    (hsv : v.splitLoad = true)
    (hp : v.bol.groundInventoryLot = some p)
    (h1 : (consumeGroundInventoryLot lots (some p) v.customer v.material
        (consumedPrimaryWeight v)).2 = .ok c1)
    (h2 : (consumeGroundInventoryLot
        (consumeGroundInventoryLot lots (some p) v.customer v.material
          (consumedPrimaryWeight v)).1
        v.bol.secondaryGroundInventoryLot v.customer v.material
        (consumedSecondaryWeight v)).2 = .error e2) :
    bol.status = .draft ∧
      (completeBol bol req look ord lots saveOk).savedBol = none ∧
      (completeBol bol req look ord lots saveOk).outcome
        = .error (.consumeFailed e2) ∧
      (completeBol bol req look ord lots saveOk).allocations = [] ∧
      remAt (completeBol bol req look ord lots saveOk).lots p = remAt lots p ∧
      (0 < consumedPrimaryWeight v →
        statusAt (completeBol bol req look ord lots saveOk).lots p
          = some .available) := by
  obtain ⟨hdraft, hsl, hpg, hpt, ht0, hg0, htg, hsplitex, hnonez, hlotsinfo,
    hbg, hbt, hbs, hbsg, hbst, hbinv, hsec⟩ :=
    completeValidate_post bol req look ord lots v hv
  have h1nn : 0 ≤ consumedPrimaryWeight v := sub_nonneg.mpr htg
  have h2nn : 0 ≤ consumedSecondaryWeight v := by
    unfold consumedSecondaryWeight
    obtain ⟨sg, hg', ht', hle⟩ := hsplitex hsv
    simp [hsv, hg', ht', sub_nonneg, hle]
  have hneg : ¬ (consumedPrimaryWeight v < 0 ∨ consumedSecondaryWeight v < 0 ∨
      consumedPrimaryWeight v + consumedSecondaryWeight v < 0) := by
    push_neg
    exact ⟨h1nn, h2nn, add_nonneg h1nn h2nn⟩
  have hrem1 := consume_remAt_of_ok lots p v.customer v.material
    (consumedPrimaryWeight v) c1 h1
  have hc1w : c1 = consumedPrimaryWeight v :=
    consume_ok_weight lots (some p) v.customer v.material
      (consumedPrimaryWeight v) c1 h1
  have hpres := consume_ok_presence lots p v.customer v.material
    (consumedPrimaryWeight v) c1 h1
  cases hcall1 : consumeGroundInventoryLot lots (some p) v.customer v.material
      (consumedPrimaryWeight v) with
  | mk s1 r1 =>
  rw [hcall1] at hrem1 hpres h1 h2
  simp only [] at hrem1 hpres h1 h2
  subst h1
  have hs2eq := consume_store_eq_of_error s1 v.bol.secondaryGroundInventoryLot
    v.customer v.material (consumedSecondaryWeight v) e2 h2
  cases hcall2 : consumeGroundInventoryLot s1 v.bol.secondaryGroundInventoryLot
      v.customer v.material (consumedSecondaryWeight v) with
  | mk s2 r2 =>
  rw [hcall2] at h2 hs2eq
  simp only [] at h2 hs2eq
  subst h2
  have hcons : completeConsume v lots =
      ((if 0 < consumedPrimaryWeight v then
          restoreGroundInventoryLot s2 p (consumedPrimaryWeight v) else s2),
        .error (.consumeFailed e2)) := by
    unfold completeConsume
    rw [if_pos hground]
    simp only []
    rw [if_neg hneg, hp, hcall1]
    simp only []
    rw [if_pos hsv, hcall2]
  have hfin : completeBol bol req look ord lots saveOk =
      ⟨(if 0 < consumedPrimaryWeight v then
          restoreGroundInventoryLot s2 p (consumedPrimaryWeight v) else s2),
        none, .error (.consumeFailed e2), []⟩ := by
    unfold completeBol
    rw [hv]
    simp only []
    rw [hcons]
  subst hs2eq
  refine ⟨hdraft, by rw [hfin], by rw [hfin], by rw [hfin], ?_, ?_⟩
  · rw [hfin]
    by_cases hcp : 0 < consumedPrimaryWeight v
    · simp only [if_pos hcp]
      have hre := restore_effect s2 p (consumedPrimaryWeight v) hpres.1
      rw [hre.1, hrem1.1, hc1w]
      ring
    · simp only [if_neg hcp]
      have hcp0 : consumedPrimaryWeight v = 0 := le_antisymm (not_lt.mp hcp) h1nn
      rw [hrem1.1, hc1w, hcp0]
      ring
  · intro hcp
    rw [hfin]
    simp only [if_pos hcp]
    exact (restore_effect s2 p (consumedPrimaryWeight v) hpres.1).2.1

/-- A concrete split ground-source completion request: primary consumes
500 from lot 1, secondary then needs 30 from lot 2 which has only 10. -/
def sampleGroundSplitReq : CompleteReq :=
  { grossWeight := 600
    tareWeight := 100
    splitLoad := true
    inventorySource := none
    groundInventoryLot := none
    secondaryGroundInventoryLot := none
    secondaryRailcarID := ""
    secondaryGrossWeight := some 630 }

/-- The validation state of the concrete split ground completion. -/
def sampleGroundSplitState : ValidState :=
  { bol := { sampleDraftBol with
      grossWeight := some 600
      tareWeight := some 100
      splitLoad := true
      secondaryGrossWeight := some 630
      secondaryTareWeight := some 600 }
    inventorySource := .ground
    splitLoad := true
    customer := 5
    material := 7
    primaryGross := 600
    primaryTare := 100
    secondaryGross := some 630
    secondaryTare := some 600 }

/-- Witness for C2 at the concrete split ground completion: the secondary
consume fails and lot 1 ends at its pre-call remaining weight with no BOL
persisted. -/
theorem split_ground_secondary_failure_witness :
    (completeBol sampleDraftBol sampleGroundSplitReq (fun _ _ => "") none
        sampleLots true).savedBol = none ∧
      remAt (completeBol sampleDraftBol sampleGroundSplitReq (fun _ _ => "")
        none sampleLots true).lots 1 = remAt sampleLots 1 := by
  have h := split_ground_secondary_failure_rolls_back_primary sampleDraftBol
    sampleGroundSplitReq (fun _ _ => "") none sampleLots true
    sampleGroundSplitState 1 500 .insufficientQuantity
    (by rfl) rfl rfl rfl
    (by norm_num [consumeGroundInventoryLot, sampleLots, sampleGroundSplitState,
      consumedPrimaryWeight, consumeGuard])
    (by norm_num [consumeGroundInventoryLot, sampleLots, sampleGroundSplitState,
      consumedPrimaryWeight, consumedSecondaryWeight, consumeGuard, setLot,
      sampleDraftBol])
  exact ⟨h.2.1, h.2.2.2.2.1⟩

/-- C3: when a ground-source completion's lot consumption has succeeded
but the save of the Completed BOL then fails, every positive consumed
weight is added back to the lot it was taken from (the restored lot's
status set to available) before the error propagates, so the BOL stays
Draft with nothing persisted and both lots end at their pre-call remaining
weights. -/
theorem ground_save_failure_restores_lots
    (bol : Bol) (req : CompleteReq) (look : Nat → String → String)
    (ord : Option OrderDoc) (lots : LotStore)
    (v : ValidState) (s1 : LotStore) (ci : ConsumeInfo)
    (hv : completeValidate bol req look ord lots = .ok v)
    (hground : v.inventorySource = .ground)
    (hc : completeConsume v lots = (s1, .ok ci)) :
    bol.status = .draft ∧
      (completeBol bol req look ord lots false).savedBol = none ∧
      (completeBol bol req look ord lots false).outcome = .error .persistFailure ∧
      (completeBol bol req look ord lots false).allocations = [] ∧
      (∀ p, v.bol.groundInventoryLot = some p →
        remAt (completeBol bol req look ord lots false).lots p = remAt lots p ∧
        (0 < consumedPrimaryWeight v →
          statusAt (completeBol bol req look ord lots false).lots p
            = some .available)) ∧
      (∀ q, v.splitLoad = true → v.bol.secondaryGroundInventoryLot = some q →
        remAt (completeBol bol req look ord lots false).lots q = remAt lots q ∧
        (0 < consumedSecondaryWeight v →
          statusAt (completeBol bol req look ord lots false).lots q
            = some .available)) := by
  obtain ⟨hdraft, hsl, hpg, hpt, ht0, hg0, htg, hsplitex, hnonez, hlotsinfo,
    hbg, hbt, hbs, hbsg, hbst, hbinv, hsec⟩ :=
    completeValidate_post bol req look ord lots v hv
  have h1nn : 0 ≤ consumedPrimaryWeight v := sub_nonneg.mpr htg
  have h2nn : 0 ≤ consumedSecondaryWeight v := by
    unfold consumedSecondaryWeight
    cases hsp : v.splitLoad with
    | false => simp
    | true =>
      obtain ⟨sg, hg', ht', hle⟩ := hsplitex hsp
      simp [hg', ht', sub_nonneg, hle]
  have hneg : ¬ (consumedPrimaryWeight v < 0 ∨ consumedSecondaryWeight v < 0 ∨
      consumedPrimaryWeight v + consumedSecondaryWeight v < 0) := by
    push_neg
    exact ⟨h1nn, h2nn, add_nonneg h1nn h2nn⟩
  have hfin : completeBol bol req look ord lots false = completeSave v ci s1 false := by
    unfold completeBol
    rw [hv]
    simp only []
    rw [hc]
  unfold completeConsume at hc
  rw [if_pos hground] at hc
  simp only [] at hc
  rw [if_neg hneg] at hc
  obtain ⟨psome, hlotsplit⟩ := hlotsinfo hground
  obtain ⟨p, hp⟩ := Option.isSome_iff_exists.mp psome
  cases hcall1 : consumeGroundInventoryLot lots v.bol.groundInventoryLot
      v.customer v.material (consumedPrimaryWeight v) with
  | mk sA r1 =>
  rw [hcall1] at hc
  cases r1 with
  | error e => simp at hc
  | ok c1 =>
  simp only [] at hc
  have hc1w : c1 = consumedPrimaryWeight v :=
    consume_ok_weight lots v.bol.groundInventoryLot v.customer v.material
      (consumedPrimaryWeight v) c1 (by rw [hcall1])
  have hcall1p : consumeGroundInventoryLot lots (some p) v.customer v.material
      (consumedPrimaryWeight v) = (sA, .ok c1) := by rw [← hp, hcall1]
  have hrem1 := consume_remAt_of_ok lots p v.customer v.material
    (consumedPrimaryWeight v) c1 (by rw [hcall1p])
  rw [hcall1p] at hrem1
  simp only [] at hrem1
  have hpres1 := consume_ok_presence lots p v.customer v.material
    (consumedPrimaryWeight v) c1 (by rw [hcall1p])
  rw [hcall1p] at hpres1
  simp only [] at hpres1
  cases hsp : v.splitLoad with
  | true =>
    rw [if_pos (by rw [hsp])] at hc
    obtain ⟨qsome, hpqne⟩ := hlotsplit hsp
    obtain ⟨q, hq⟩ := Option.isSome_iff_exists.mp qsome
    have hqp : q ≠ p := by
      intro hbad
      apply hpqne
      rw [hp, hq, hbad]
    cases hcall2 : consumeGroundInventoryLot sA v.bol.secondaryGroundInventoryLot
        v.customer v.material (consumedSecondaryWeight v) with
    | mk s2 r2 =>
    rw [hcall2] at hc
    cases r2 with
    | error e => simp at hc
    | ok c2 =>
    simp only [Prod.mk.injEq, Except.ok.injEq] at hc
    obtain ⟨hs1, hci⟩ := hc
    have hc2w : c2 = consumedSecondaryWeight v :=
      consume_ok_weight sA v.bol.secondaryGroundInventoryLot v.customer
        v.material (consumedSecondaryWeight v) c2 (by rw [hcall2])
    have hcall2q : consumeGroundInventoryLot sA (some q) v.customer v.material
        (consumedSecondaryWeight v) = (s2, .ok c2) := by rw [← hq, hcall2]
    have hrem2 := consume_remAt_of_ok sA q v.customer v.material
      (consumedSecondaryWeight v) c2 (by rw [hcall2q])
    rw [hcall2q] at hrem2
    simp only [] at hrem2
    have hpres2 := consume_ok_presence sA q v.customer v.material
      (consumedSecondaryWeight v) c2 (by rw [hcall2q])
    rw [hcall2q] at hpres2
    simp only [] at hpres2
    have hsAq : sA q = lots q := by
      have hother := consume_preserves_other lots v.bol.groundInventoryLot
        v.customer v.material (consumedPrimaryWeight v) q
        (by rw [hp]; intro hbad; exact hqp (by injection hbad))
      rw [hcall1] at hother
      simpa using hother
    have hs2p : s2 p = sA p := by
      have hother := consume_preserves_other sA v.bol.secondaryGroundInventoryLot
        v.customer v.material (consumedSecondaryWeight v) p
        (by rw [hq]; intro hbad; exact hqp (by injection hbad with h'; exact h'.symm))
      rw [hcall2] at hother
      simpa using hother
    subst hs1
    have hsave : completeSave v ci s2 false =
        ⟨(if 0 < consumedSecondaryWeight v then
            restoreGroundInventoryLot
              (if 0 < consumedPrimaryWeight v then
                restoreGroundInventoryLot s2 p (consumedPrimaryWeight v) else s2)
              q (consumedSecondaryWeight v)
          else
            (if 0 < consumedPrimaryWeight v then
              restoreGroundInventoryLot s2 p (consumedPrimaryWeight v) else s2)),
          none, .error .persistFailure, []⟩ := by
      unfold completeSave
      rw [← hci]
      simp only [if_neg (by simp : ¬ (false = true))]
      rw [if_pos hground]
      simp only [hp, hq]
    have hs2presP : (s2 p).isSome = true := by rw [hs2p]; exact hpres1.1
    have hrems2p : remAt s2 p = remAt lots p - consumedPrimaryWeight v := by
      have h' : remAt s2 p = remAt sA p := by unfold remAt; rw [hs2p]
      rw [h', hrem1.1, hc1w]
    have hrems2q : remAt s2 q = remAt lots q - consumedSecondaryWeight v := by
      have h' : remAt sA q = remAt lots q := by unfold remAt; rw [hsAq]
      rw [hrem2.1, h', hc2w]
    -- the intermediate and final rollback stores
    have hsPp : ∀ hcp : 0 < consumedPrimaryWeight v,
        remAt (if 0 < consumedPrimaryWeight v then
          restoreGroundInventoryLot s2 p (consumedPrimaryWeight v) else s2) p
          = remAt lots p ∧
        statusAt (if 0 < consumedPrimaryWeight v then
          restoreGroundInventoryLot s2 p (consumedPrimaryWeight v) else s2) p
          = some .available := by
      intro hcp
      rw [if_pos hcp]
      have hre := restore_effect s2 p (consumedPrimaryWeight v) hs2presP
      refine ⟨?_, hre.2.1⟩
      rw [hre.1, hrems2p]
      ring
    have hsPp0 : ¬ 0 < consumedPrimaryWeight v →
        remAt (if 0 < consumedPrimaryWeight v then
          restoreGroundInventoryLot s2 p (consumedPrimaryWeight v) else s2) p
          = remAt lots p := by
      intro hcp
      rw [if_neg hcp]
      have hcp0 : consumedPrimaryWeight v = 0 := le_antisymm (not_lt.mp hcp) h1nn
      rw [hrems2p, hcp0]
      ring
    have hsPq : (if 0 < consumedPrimaryWeight v then
        restoreGroundInventoryLot s2 p (consumedPrimaryWeight v) else s2) q
          = s2 q := by
      by_cases hcp : 0 < consumedPrimaryWeight v
      · rw [if_pos hcp]
        exact restore_other s2 p (consumedPrimaryWeight v) q hqp
      · rw [if_neg hcp]
    rw [hfin, hsave]
    refine ⟨hdraft, rfl, rfl, rfl, ?_, ?_⟩
    · intro p' hp'
      have hpp : p' = p := by
        rw [hp] at hp'
        exact (Option.some.inj hp').symm
      rw [hpp]
      have hFp : (if 0 < consumedSecondaryWeight v then
          restoreGroundInventoryLot
            (if 0 < consumedPrimaryWeight v then
              restoreGroundInventoryLot s2 p (consumedPrimaryWeight v) else s2)
            q (consumedSecondaryWeight v)
          else
            (if 0 < consumedPrimaryWeight v then
              restoreGroundInventoryLot s2 p (consumedPrimaryWeight v) else s2)) p
          = (if 0 < consumedPrimaryWeight v then
              restoreGroundInventoryLot s2 p (consumedPrimaryWeight v) else s2) p := by
        by_cases hcs : 0 < consumedSecondaryWeight v
        · rw [if_pos hcs]
          exact restore_other _ q (consumedSecondaryWeight v) p (Ne.symm hqp)
        · rw [if_neg hcs]
      constructor
      · simp only []
        have h' : remAt (if 0 < consumedSecondaryWeight v then
            restoreGroundInventoryLot
              (if 0 < consumedPrimaryWeight v then
                restoreGroundInventoryLot s2 p (consumedPrimaryWeight v) else s2)
              q (consumedSecondaryWeight v)
            else
              (if 0 < consumedPrimaryWeight v then
                restoreGroundInventoryLot s2 p (consumedPrimaryWeight v) else s2)) p
            = remAt (if 0 < consumedPrimaryWeight v then
                restoreGroundInventoryLot s2 p (consumedPrimaryWeight v) else s2) p := by
          unfold remAt
          rw [hFp]
        rw [h']
        by_cases hcp : 0 < consumedPrimaryWeight v
        · exact (hsPp hcp).1
        · exact hsPp0 hcp
      · intro hcp
        simp only []
        have h' : statusAt (if 0 < consumedSecondaryWeight v then
            restoreGroundInventoryLot
              (if 0 < consumedPrimaryWeight v then
                restoreGroundInventoryLot s2 p (consumedPrimaryWeight v) else s2)
              q (consumedSecondaryWeight v)
            else
              (if 0 < consumedPrimaryWeight v then
                restoreGroundInventoryLot s2 p (consumedPrimaryWeight v) else s2)) p
            = statusAt (if 0 < consumedPrimaryWeight v then
                restoreGroundInventoryLot s2 p (consumedPrimaryWeight v) else s2) p := by
          unfold statusAt
          rw [hFp]
        rw [h']
        exact (hsPp hcp).2
    · intro q' hsq hq'
      have hqq : q' = q := by
        rw [hq] at hq'
        exact (Option.some.inj hq').symm
      rw [hqq]
      have hsPqpres : ((if 0 < consumedPrimaryWeight v then
          restoreGroundInventoryLot s2 p (consumedPrimaryWeight v) else s2) q).isSome
            = true := by
        rw [hsPq]
        exact hpres2.1
      have hremsPq : remAt (if 0 < consumedPrimaryWeight v then
          restoreGroundInventoryLot s2 p (consumedPrimaryWeight v) else s2) q
            = remAt lots q - consumedSecondaryWeight v := by
        have h' : remAt (if 0 < consumedPrimaryWeight v then
            restoreGroundInventoryLot s2 p (consumedPrimaryWeight v) else s2) q
              = remAt s2 q := by
          unfold remAt
          rw [hsPq]
        rw [h', hrems2q]
      constructor
      · simp only []
        by_cases hcs : 0 < consumedSecondaryWeight v
        · rw [if_pos hcs]
          have hre := restore_effect _ q (consumedSecondaryWeight v) hsPqpres
          rw [hre.1, hremsPq]
          ring
        · rw [if_neg hcs]
          have hcs0 : consumedSecondaryWeight v = 0 :=
            le_antisymm (not_lt.mp hcs) h2nn
          rw [hremsPq, hcs0]
          ring
      · intro hcs
        simp only []
        rw [if_pos hcs]
        exact (restore_effect _ q (consumedSecondaryWeight v) hsPqpres).2.1
  | false =>
    rw [if_neg (by simp [hsp])] at hc
    simp only [Prod.mk.injEq, Except.ok.injEq] at hc
    obtain ⟨hs1, hci⟩ := hc
    subst hs1
    have hcs0 : consumedSecondaryWeight v = 0 := by
      unfold consumedSecondaryWeight
      simp [hsp]
    have hsave : completeSave v ci sA false =
        ⟨(if 0 < consumedPrimaryWeight v then
            restoreGroundInventoryLot sA p (consumedPrimaryWeight v) else sA),
          none, .error .persistFailure, []⟩ := by
      unfold completeSave
      rw [← hci]
      simp only [if_neg (by simp : ¬ (false = true))]
      rw [if_pos hground]
      simp only [hp]
    rw [hfin, hsave]
    refine ⟨hdraft, rfl, rfl, rfl, ?_, ?_⟩
    · intro p' hp'
      have hpp : p' = p := by
        rw [hp] at hp'
        exact (Option.some.inj hp').symm
      rw [hpp]
      constructor
      · simp only []
        by_cases hcp : 0 < consumedPrimaryWeight v
        · rw [if_pos hcp]
          have hre := restore_effect sA p (consumedPrimaryWeight v) hpres1.1
          rw [hre.1, hrem1.1, hc1w]
          ring
        · rw [if_neg hcp]
          have hcp0 : consumedPrimaryWeight v = 0 :=
            le_antisymm (not_lt.mp hcp) h1nn
          rw [hrem1.1, hc1w, hcp0]
          ring
      · intro hcp
        simp only []
        rw [if_pos hcp]
        exact (restore_effect sA p (consumedPrimaryWeight v) hpres1.1).2.1
    · intro q' hsq hq'
      exact absurd hsq (by simp)

/-- The validation state of the concrete non-split ground completion. -/
def sampleGroundState : ValidState :=
  { bol := { sampleDraftBol with
      grossWeight := some 600
      tareWeight := some 100
      splitLoad := false
      secondaryGroundInventoryLot := none }
    inventorySource := .ground
    splitLoad := false
    customer := 5
    material := 7
    primaryGross := 600
    primaryTare := 100
    secondaryGross := none
    secondaryTare := none }

/-- The consumption record of the concrete non-split ground completion. -/
def sampleConsumeInfo : ConsumeInfo :=
  { consumedWeight := some 500
    consumedPrimaryWeight := some 500
    consumedSecondaryWeight := some 0
    consumedPrimaryLot := some 1
    consumedSecondaryLot := none }

/-- Witness for C3 at the concrete ground completion with a failing save:
nothing is persisted and lot 1 is back at its pre-call remaining weight. -/
theorem ground_save_failure_restores_lots_witness :
    (completeBol sampleDraftBol sampleReq (fun _ _ => "") none sampleLots
        false).savedBol = none ∧
      remAt (completeBol sampleDraftBol sampleReq (fun _ _ => "") none
        sampleLots false).lots 1 = remAt sampleLots 1 := by
  have hc2 : (completeConsume sampleGroundState sampleLots).2
      = .ok sampleConsumeInfo := by
    norm_num [completeConsume, consumedPrimaryWeight, consumedSecondaryWeight,
      consumeGroundInventoryLot, consumeGuard, sampleLots, sampleGroundState,
      sampleDraftBol, sampleConsumeInfo]
  have h := ground_save_failure_restores_lots sampleDraftBol sampleReq
    (fun _ _ => "") none sampleLots sampleGroundState
    (completeConsume sampleGroundState sampleLots).1 sampleConsumeInfo
    (by rfl) rfl (Prod.ext rfl hc2)
  exact ⟨h.2.1, (h.2.2.2.2.1 1 rfl).1⟩

/-- A concrete split railcar-source completion request whose secondary
gross weight is below the primary gross weight. -/
def sampleSplitReq : CompleteReq :=
  { grossWeight := 5000
    tareWeight := 2000
    splitLoad := true
    inventorySource := some .railcar
    groundInventoryLot := none
    secondaryGroundInventoryLot := none
    secondaryRailcarID := "RC2"
    secondaryGrossWeight := some 4800 }

/-- Witness for C6: the concrete split request with secondary gross 4800
below primary gross 5000 is rejected with no persistence. -/
theorem split_secondary_tare_convention_witness :
    (completeBol sampleDraftBol sampleSplitReq (fun _ _ => "") none sampleLots
        true).savedBol = none ∧
      ∃ e, (completeBol sampleDraftBol sampleSplitReq (fun _ _ => "") none
        sampleLots true).outcome = .error e := by
  have h := (split_secondary_tare_convention sampleDraftBol sampleSplitReq
    (fun _ _ => "") none sampleLots true rfl).1 4800 rfl
    (by show (4800 : ℚ) < 5000; norm_num)
  exact ⟨h.2.1, h.2.2⟩

/-- C7: railcar-to-ground conversion is idempotent.  The conversion token
is the deterministic function of customer id, railcar id, rail shipment
BOL number and railcar document id; when a lot with that token already
exists the release reports the conversion without creating a second lot;
otherwise exactly one new lot is appended, with startingWeight =
remainingWeight = the railcar's remaining weight and status available; and
an immediate second release of the same railcar creates no further lot. -/
theorem release_conversion_idempotent
    (railcar : Railcar) (ctx : ReleaseCtx) (lots : List Lot)
    (hrole : ctx.role = .internal ∨ ctx.role = .admin)
    (hstatus : railcar.currentStatus = "Available" ∨
      railcar.currentStatus = "On-Spot")
    (henabled : ctx.enableGroundInventory = true)
    (hmat : railcar.materialName.isSome = true)
    (hw : 0 < ctx.remainingWeight) :
    ∀ res, releaseEmpty railcar ctx lots = .ok res →
      ((∃ l ∈ lots, l.conversionToken = buildGroundConversionToken
          (toString railcar.customerName) railcar.railcarID
          railcar.railcarBolNumber (toString railcar.docId)) →
        res.lots = lots ∧
        res.conversion = some ⟨false, buildGroundConversionToken
          (toString railcar.customerName) railcar.railcarID
          railcar.railcarBolNumber (toString railcar.docId)⟩) ∧
      ((∀ l ∈ lots, l.conversionToken ≠ buildGroundConversionToken
          (toString railcar.customerName) railcar.railcarID
          railcar.railcarBolNumber (toString railcar.docId)) →
        countTokenLots res.lots (buildGroundConversionToken
          (toString railcar.customerName) railcar.railcarID
          railcar.railcarBolNumber (toString railcar.docId))
          = countTokenLots lots (buildGroundConversionToken
            (toString railcar.customerName) railcar.railcarID
            railcar.railcarBolNumber (toString railcar.docId)) + 1 ∧
        ∃ newLot, res.lots = lots ++ [newLot] ∧
          newLot.startingWeight = ctx.remainingWeight ∧
          newLot.remainingWeight = ctx.remainingWeight ∧
          newLot.status = .available ∧
          newLot.conversionToken = buildGroundConversionToken
            (toString railcar.customerName) railcar.railcarID
            railcar.railcarBolNumber (toString railcar.docId)) ∧
      (∀ res2, releaseEmpty railcar ctx res.lots = .ok res2 →
        res2.lots = res.lots) := by
  have hnotcust : ¬ (ctx.role = .customer ∧
      ctx.tokenCustomerId ≠ some railcar.customerName) := by
    rintro ⟨hcust, -⟩
    cases hrole with
    | inl h => rw [h] at hcust; cases hcust
    | inr h => rw [h] at hcust; cases hcust
  have hrel : ¬ ¬ (railcar.currentStatus = "Available" ∨
      railcar.currentStatus = "On-Spot") := not_not_intro hstatus
  have hconv : (ctx.role = .internal ∨ ctx.role = .admin) ∧
      ctx.enableGroundInventory = true ∧
      railcar.materialName.isSome = true ∧ 0 < ctx.remainingWeight :=
    ⟨hrole, henabled, hmat, hw⟩
  intro res hres
  unfold releaseEmpty at hres
  rw [if_neg hnotcust, if_neg hrel] at hres
  simp only [] at hres
  rw [if_pos hconv] at hres
  have hcontains : ∀ lots2 : List Lot,
      (∃ l ∈ lots2, l.conversionToken = buildGroundConversionToken
        (toString railcar.customerName) railcar.railcarID
        railcar.railcarBolNumber (toString railcar.docId)) →
      ∀ res2, releaseEmpty railcar ctx lots2 = .ok res2 → res2.lots = lots2 := by
    intro lots2 hex res2 hres2
    unfold releaseEmpty at hres2
    rw [if_neg hnotcust, if_neg hrel] at hres2
    simp only [] at hres2
    rw [if_pos hconv] at hres2
    obtain ⟨l, hl, htok⟩ := hex
    have hfind : (lots2.find? (fun l => l.conversionToken ==
        buildGroundConversionToken (toString railcar.customerName)
          railcar.railcarID railcar.railcarBolNumber
          (toString railcar.docId))).isSome = true := by
      rw [List.find?_isSome]
      exact ⟨l, hl, by simp [htok]⟩
    match hfo : lots2.find? (fun l => l.conversionToken ==
        buildGroundConversionToken (toString railcar.customerName)
          railcar.railcarID railcar.railcarBolNumber
          (toString railcar.docId)) with
    | none => rw [hfo] at hfind; cases hfind
    | some l' =>
      rw [hfo] at hres2
      simp only [Except.ok.injEq] at hres2
      rw [← hres2]
  match hfo : lots.find? (fun l => l.conversionToken ==
      buildGroundConversionToken (toString railcar.customerName)
        railcar.railcarID railcar.railcarBolNumber
        (toString railcar.docId)) with
  | some l0 =>
    rw [hfo] at hres
    simp only [Except.ok.injEq] at hres
    have hl0 := List.find?_some hfo
    have hl0mem := List.mem_of_find?_eq_some hfo
    refine ⟨fun _ => ⟨by rw [← hres], by rw [← hres]⟩, fun hnone => ?_, ?_⟩
    · exact absurd (by simpa using hl0) (hnone l0 hl0mem)
    · intro res2 hres2
      apply hcontains res.lots _ res2 hres2
      refine ⟨l0, ?_, by simpa using hl0⟩
      rw [← hres]
      exact hl0mem
  | none =>
    rw [hfo] at hres
    simp only [Except.ok.injEq] at hres
    subst hres
    have hnodup := List.find?_eq_none.mp hfo
    refine ⟨fun hex => ?_, fun _ => ?_, ?_⟩
    · obtain ⟨l, hl, htok⟩ := hex
      exact absurd (by simp [htok]) (hnodup l hl)
    · refine ⟨?_,
        ⟨{ customer := railcar.customerName,
           material := railcar.materialName.getD 0,
           conversionToken := buildGroundConversionToken
             (toString railcar.customerName) railcar.railcarID
             railcar.railcarBolNumber (toString railcar.docId),
           startingWeight := ctx.remainingWeight,
           remainingWeight := ctx.remainingWeight,
           status := .available },
         rfl, rfl, rfl, rfl, rfl⟩⟩
      simp [countTokenLots, List.filter_append]
    · intro res2 hres2
      apply hcontains _ _ res2 hres2
      refine ⟨{ customer := railcar.customerName,
                material := railcar.materialName.getD 0,
                conversionToken := buildGroundConversionToken
                  (toString railcar.customerName) railcar.railcarID
                  railcar.railcarBolNumber (toString railcar.docId),
                startingWeight := ctx.remainingWeight,
                remainingWeight := ctx.remainingWeight,
                status := .available }, ?_, rfl⟩
      simp

/-- A concrete railcar ready for release. -/
def sampleRailcar : Railcar :=
  { docId := 9
    customerName := 5
    railcarID := "RC9"
    railcarBolNumber := "BOL9"
    materialName := some 7
    currentStatus := "Available" }

/-- A concrete internal-role release context with remaining weight 300. -/
def sampleReleaseCtx : ReleaseCtx :=
  { role := .internal
    tokenCustomerId := none
    enableGroundInventory := true
    remainingWeight := 300 }

/-- The conversion token of the concrete railcar (evaluates to the string
"5|RC9|BOL9|9"). -/
def sampleToken : String :=
  buildGroundConversionToken (toString (5 : Nat)) "RC9" "BOL9"
    (toString (9 : Nat))

/-- The result of releasing the concrete railcar over an empty lot
collection. -/
def sampleReleaseResult : ReleaseResult :=
  { lots := [{ customer := 5
               material := 7
               conversionToken := sampleToken
               startingWeight := 300
               remainingWeight := 300
               status := .available }]
    conversion := some { created := true, token := sampleToken } }

/-- Witness for C7 at the concrete railcar release: exactly one lot with
the conversion token is created. -/
theorem release_conversion_idempotent_witness :
    countTokenLots sampleReleaseResult.lots
        (buildGroundConversionToken (toString sampleRailcar.customerName)
          sampleRailcar.railcarID sampleRailcar.railcarBolNumber
          (toString sampleRailcar.docId))
      = countTokenLots []
          (buildGroundConversionToken (toString sampleRailcar.customerName)
            sampleRailcar.railcarID sampleRailcar.railcarBolNumber
            (toString sampleRailcar.docId)) + 1 :=
  ((release_conversion_idempotent sampleRailcar sampleReleaseCtx []
    (Or.inl rfl) (Or.inl rfl) rfl rfl (by norm_num [sampleReleaseCtx])
    sampleReleaseResult rfl).2.1 (by simp)).1

/-- A concrete customer-role release context in the railcar's scope. -/
def sampleCustomerCtx : ReleaseCtx :=
  { role := .customer
    tokenCustomerId := some 5
    enableGroundInventory := true
    remainingWeight := 300 }

/-- Counterexample to C8 as stated: a customer-role user releases the
railcar with releasable status, ground-inventory mode enabled, a material
assigned and positive remaining weight, yet no ground inventory lot is
created (the code additionally requires the internal or admin role). -/
theorem release_customer_role_creates_no_lot :
    (sampleRailcar.currentStatus = "Available" ∨
      sampleRailcar.currentStatus = "On-Spot") ∧
    sampleCustomerCtx.enableGroundInventory = true ∧
    sampleRailcar.materialName.isSome = true ∧
    0 < sampleCustomerCtx.remainingWeight ∧
    releaseEmpty sampleRailcar sampleCustomerCtx [] = .ok ⟨[], none⟩ := by
  refine ⟨Or.inl rfl, rfl, rfl, by norm_num [sampleCustomerCtx], rfl⟩

/-- C8 (amended): whenever a railcar in a releasable status is released as
empty by an internal or admin user, its customer has ground-inventory mode
enabled, the railcar has a material assigned and positive remaining
weight, and no lot with the release's conversion token exists yet, the
release creates exactly one ground inventory lot from the remaining
weight. -/
theorem release_internal_creates_exactly_one_lot
    (railcar : Railcar) (ctx : ReleaseCtx) (lots : List Lot)
    (hrole : ctx.role = .internal ∨ ctx.role = .admin)
    (hstatus : railcar.currentStatus = "Available" ∨
      railcar.currentStatus = "On-Spot")
    (henabled : ctx.enableGroundInventory = true)
    (hmat : railcar.materialName.isSome = true)
    (hw : 0 < ctx.remainingWeight)
    (hfresh : ∀ l ∈ lots, l.conversionToken ≠ buildGroundConversionToken
      (toString railcar.customerName) railcar.railcarID
      railcar.railcarBolNumber (toString railcar.docId)) :
    ∃ res, releaseEmpty railcar ctx lots = .ok res ∧
      res.lots.length = lots.length + 1 ∧
      countTokenLots res.lots (buildGroundConversionToken
        (toString railcar.customerName) railcar.railcarID
        railcar.railcarBolNumber (toString railcar.docId)) = 1 ∧
      ∃ newLot, res.lots = lots ++ [newLot] ∧
        newLot.startingWeight = ctx.remainingWeight ∧
        newLot.remainingWeight = ctx.remainingWeight ∧
        newLot.status = .available := by
  have hnotcust : ¬ (ctx.role = .customer ∧
      ctx.tokenCustomerId ≠ some railcar.customerName) := by
    rintro ⟨hcust, -⟩
    cases hrole with
    | inl h => rw [h] at hcust; cases hcust
    | inr h => rw [h] at hcust; cases hcust
  have hrel : ¬ ¬ (railcar.currentStatus = "Available" ∨
      railcar.currentStatus = "On-Spot") := not_not_intro hstatus
  have hconv : (ctx.role = .internal ∨ ctx.role = .admin) ∧
      ctx.enableGroundInventory = true ∧
      railcar.materialName.isSome = true ∧ 0 < ctx.remainingWeight :=
    ⟨hrole, henabled, hmat, hw⟩
  have hfo : lots.find? (fun l => l.conversionToken ==
      buildGroundConversionToken (toString railcar.customerName)
        railcar.railcarID railcar.railcarBolNumber
        (toString railcar.docId)) = none := by
    rw [List.find?_eq_none]
    intro l hl
    simpa using hfresh l hl
  have hcount0 : countTokenLots lots (buildGroundConversionToken
      (toString railcar.customerName) railcar.railcarID
      railcar.railcarBolNumber (toString railcar.docId)) = 0 := by
    unfold countTokenLots
    rw [List.length_eq_zero, List.filter_eq_nil_iff]
    intro l hl
    simpa using hfresh l hl
  refine ⟨⟨lots ++
      [{ customer := railcar.customerName,
         material := railcar.materialName.getD 0,
         conversionToken := buildGroundConversionToken
           (toString railcar.customerName) railcar.railcarID
           railcar.railcarBolNumber (toString railcar.docId),
         startingWeight := ctx.remainingWeight,
         remainingWeight := ctx.remainingWeight,
         status := .available }],
      some ⟨true, buildGroundConversionToken (toString railcar.customerName)
        railcar.railcarID railcar.railcarBolNumber
        (toString railcar.docId)⟩⟩, ?_, ?_, ?_, ?_⟩
  · unfold releaseEmpty
    rw [if_neg hnotcust, if_neg hrel]
    simp only []
    rw [if_pos hconv, hfo]
  · simp
  · simp only []
    simp [countTokenLots, List.filter_append, hcount0]
    exact hfresh
  · exact ⟨_, rfl, rfl, rfl, rfl⟩

/-- Witness for C8's amended statement at the concrete internal-role
release: exactly one lot with the conversion token exists afterwards. -/
theorem release_internal_creates_exactly_one_lot_witness :
    countTokenLots sampleReleaseResult.lots
      (buildGroundConversionToken (toString sampleRailcar.customerName)
        sampleRailcar.railcarID sampleRailcar.railcarBolNumber
        (toString sampleRailcar.docId)) = 1 := by
  obtain ⟨res, hres, hlen, hcount, -⟩ :=
    release_internal_creates_exactly_one_lot sampleRailcar sampleReleaseCtx []
      (Or.inl rfl) (Or.inl rfl) rfl rfl (by norm_num [sampleReleaseCtx])
      (by simp)
  have heq : res = sampleReleaseResult := by
    have h' : (Except.ok res : Except ReleaseError ReleaseResult)
        = .ok sampleReleaseResult := by
      rw [← hres]
      rfl
    injection h'
  rw [← heq]
  exact hcount

/-- For a non-ground BOL the schema hook clears the secondary ground-lot
fields but leaves the primary lot link and the rail shipment number
alone. -/
theorem bolPreValidate_railcar_fields (b : Bol)
    (h : b.inventorySource ≠ .ground) :
    (bolPreValidate b).railShipmentBolNumber = b.railShipmentBolNumber ∧
      (bolPreValidate b).secondaryGroundInventoryLot = none ∧
      (bolPreValidate b).secondaryGroundInventoryAllocatedWeight = none ∧
      (bolPreValidate b).groundInventoryLot = b.groundInventoryLot ∧
      (bolPreValidate b).inventorySource = b.inventorySource := by
  by_cases h2 : (b.grossWeight.isSome && b.tareWeight.isSome) = true <;>
    by_cases h3 : (b.splitLoad && b.secondaryGrossWeight.isSome &&
      b.secondaryTareWeight.isSome) = true <;>
    simp [bolPreValidate, h, h2, h3]

/-- A concrete railcar-source creation request that supplies a ground
inventory lot id. -/
def sampleCreateReq : CreateReq :=
  { orderNumber := some 1
    customerName := some 5
    shipperName := some 2
    projectName := some 3
    materialName := some 7
    railcarID := "RC1"
    railShipmentBolNumber := ""
    secondaryRailcarID := ""
    inventorySource := some .railcar
    status := some .draft
    groundInventoryLot := some 7
    secondaryGroundInventoryLot := some 2
    splitLoad := false
    grossWeight := none
    tareWeight := none
    secondaryGrossWeight := none
    secondaryTareWeight := none
    hasWeighInTime := false
    hasWeighOutTime := false }

/-- Counterexample to C9 as stated: a railcar-source creation that
supplies groundInventoryLot = 7 persists a document whose
groundInventoryLot is still 7 — the creation route and the schema hook
only clear the secondary ground-lot fields for railcar source, not the
primary one. -/
theorem create_railcar_keeps_supplied_ground_lot :
    (createBol sampleCreateReq (fun _ _ => "SHIP1") sampleLots).map
        (fun b => b.groundInventoryLot) = .ok (some 7) ∧
      some 7 ≠ (none : Option Nat) := by
  exact ⟨rfl, by simp⟩

/-- C9 (amended): for every BOL created with inventorySource = railcar,
the secondary ground-lot fields are cleared on the persisted document
(secondaryGroundInventoryLot and secondaryGroundInventoryAllocatedWeight
end null), the supplied groundInventoryLot is kept as supplied, and
railShipmentBolNumber is backfilled via the railcar shipment lookup when
not explicitly supplied. -/
theorem create_railcar_clears_secondary_and_backfills
    (req : CreateReq) (look : Nat → String → String) (lots : LotStore) (b : Bol)
    (hsrc : req.inventorySource.getD .railcar = .railcar)
    (hok : createBol req look lots = .ok b) :
    b.secondaryGroundInventoryLot = none ∧
      b.secondaryGroundInventoryAllocatedWeight = none ∧
      b.groundInventoryLot = req.groundInventoryLot ∧
      b.inventorySource = .railcar ∧
      (strTrim req.railShipmentBolNumber = "" →
        b.railShipmentBolNumber
          = look (req.customerName.getD 0) (strTrim req.railcarID)) := by
  unfold createBol at hok
  simp only [] at hok
  rw [hsrc] at hok
  by_cases h1 : (req.orderNumber.isNone || req.customerName.isNone ||
      req.shipperName.isNone || req.projectName.isNone ||
      req.materialName.isNone) = true
  · rw [if_pos h1] at hok; simp at hok
  rw [if_neg h1] at hok
  by_cases h2 : (InvSource.railcar ≠ InvSource.ground ∧ strTrim req.railcarID = "")
  · rw [if_pos h2] at hok; simp at hok
  rw [if_neg h2] at hok
  cases hT : normalizeCreateTare req (req.status.getD .draft) with
  | error e => rw [hT] at hok; simp at hok
  | ok tareWeight =>
  rw [hT] at hok
  simp only [] at hok
  by_cases hw1 : optNeg req.grossWeight = true
  · rw [if_pos hw1] at hok; simp at hok
  rw [if_neg hw1] at hok
  by_cases hw2 : optNeg tareWeight = true
  · rw [if_pos hw2] at hok; simp at hok
  rw [if_neg hw2] at hok
  by_cases hw3 : optLt req.grossWeight tareWeight = true
  · rw [if_pos hw3] at hok; simp at hok
  rw [if_neg hw3] at hok
  by_cases hw4 : optNeg req.secondaryGrossWeight = true
  · rw [if_pos hw4] at hok; simp at hok
  rw [if_neg hw4] at hok
  by_cases hw5 : optNeg req.secondaryTareWeight = true
  · rw [if_pos hw5] at hok; simp at hok
  rw [if_neg hw5] at hok
  by_cases hw6 : optLt req.secondaryGrossWeight req.secondaryTareWeight = true
  · rw [if_pos hw6] at hok; simp at hok
  rw [if_neg hw6] at hok
  have hres : resolveCreateLots req lots InvSource.railcar req.groundInventoryLot
      = .ok (none, req.secondaryGrossWeight, req.secondaryTareWeight) := by
    unfold resolveCreateLots
    rw [if_neg (by simp : ¬ (InvSource.railcar = InvSource.ground))]
  rw [hres] at hok
  simp only [Except.ok.injEq] at hok
  have hng : (InvSource.railcar = InvSource.ground) = False := by simp
  have hcust : req.customerName.isSome = true := by
    cases hc : req.customerName with
    | some c => rfl
    | none => exact absurd h1 (by simp [hc])
  have hrid : ¬ strTrim req.railcarID = "" := by
    intro hbad
    exact h2 ⟨by simp, hbad⟩
  obtain rfl := hok.symm
  have hpre := bolPreValidate_railcar_fields
    ({ status := req.status.getD .draft,
       orderNumber := req.orderNumber,
       customerName := req.customerName,
       shipperName := req.shipperName,
       projectName := req.projectName,
       materialName := req.materialName,
       inventorySource := InvSource.railcar,
       groundInventoryLot := req.groundInventoryLot,
       secondaryGroundInventoryLot := none,
       groundInventoryAllocatedWeight := none,
       secondaryGroundInventoryAllocatedWeight := none,
       grossWeight := req.grossWeight,
       tareWeight := tareWeight,
       primaryNetWeight := none,
       primaryTonWeight := none,
       splitLoad := req.splitLoad,
       railcarID := if InvSource.railcar = InvSource.ground then ""
         else strTrim req.railcarID,
       secondaryRailcarID := if InvSource.railcar = InvSource.ground then ""
         else req.secondaryRailcarID,
       secondaryGrossWeight := req.secondaryGrossWeight,
       secondaryTareWeight := req.secondaryTareWeight,
       secondaryNetWeight := none,
       secondaryTonWeight := none,
       netWeight := none,
       tonWeight := none,
       railShipmentBolNumber :=
         if strTrim req.railShipmentBolNumber = "" ∧
             req.customerName.isSome = true ∧
             (if InvSource.railcar = InvSource.ground then ""
               else strTrim req.railcarID) ≠ "" then
           look (req.customerName.getD 0)
             (if InvSource.railcar = InvSource.ground then ""
               else strTrim req.railcarID)
         else strTrim req.railShipmentBolNumber,
       secondaryRailShipmentBolNumber := "" } : Bol)
    (by simp)
  refine ⟨hpre.2.1, hpre.2.2.1, by rw [hpre.2.2.2.1], by rw [hpre.2.2.2.2], ?_⟩
  intro hempty
  rw [hpre.1]
  simp only [hng, if_false]
  rw [if_pos ⟨hempty, hcust, hrid⟩]

/-- The persisted document of the concrete railcar-source creation. -/
def sampleCreatedBol : Bol :=
  { status := .draft
    orderNumber := some 1
    customerName := some 5
    shipperName := some 2
    projectName := some 3
    materialName := some 7
    inventorySource := .railcar
    groundInventoryLot := some 7
    secondaryGroundInventoryLot := none
    groundInventoryAllocatedWeight := none
    secondaryGroundInventoryAllocatedWeight := none
    grossWeight := none
    tareWeight := none
    primaryNetWeight := none
    primaryTonWeight := none
    splitLoad := false
    railcarID := "RC1"
    secondaryRailcarID := ""
    secondaryGrossWeight := none
    secondaryTareWeight := none
    secondaryNetWeight := none
    secondaryTonWeight := none
    netWeight := none
    tonWeight := none
    railShipmentBolNumber := "SHIP1"
    secondaryRailShipmentBolNumber := "" }

/-- Witness for C9's amended statement at the concrete railcar-source
creation: the secondary lot field ends null, the supplied primary lot is
kept, and the shipment number is backfilled from the lookup. -/
theorem create_railcar_clears_secondary_and_backfills_witness :
    sampleCreatedBol.secondaryGroundInventoryLot = none ∧
      sampleCreatedBol.groundInventoryLot = sampleCreateReq.groundInventoryLot ∧
      sampleCreatedBol.railShipmentBolNumber
        = (fun _ _ => "SHIP1") (sampleCreateReq.customerName.getD 0)
            (strTrim sampleCreateReq.railcarID) := by
  have h := create_railcar_clears_secondary_and_backfills sampleCreateReq
    (fun _ _ => "SHIP1") sampleLots sampleCreatedBol rfl (by rfl)
  exact ⟨h.1, h.2.2.1, h.2.2.2.2 rfl⟩

end Wtnn
